import Mathlib

/-!
Shallow embedding of the voxpaint data core (`voxpaint/drawing.py`,
`voxpaint/edit.py`, `voxpaint/view.py`, `voxpaint/palette.py`) in Lean 4.

A drawing's cell buffer is a dense 3-d array of 8-bit indexed-color values;
it is modelled as a `Grid Nat`: a shape together with a total valuation
function that returns 0 outside the shape (arrays have no values there).
Machine arithmetic is made explicit: uint8 stores reduce values mod 256 and
int16 diffs wrap into [-32768, 32768).  Byte serialization of arrays
(`tobytes`/`frombuffer`/`reshape`) is modelled as C-order flattening into a
list; zlib compression is a bijection on byte strings and is modelled as the
identity on the flattened data.  Python calls that raise are modelled as
`Option`-valued functions returning `none`.
-/

namespace Voxpaint

/-- Index/shape triples (x, y, z) resp. (width, height, depth). -/
abbrev Triple := Nat × Nat × Nat

/-- Component of a triple along an axis (0, 1 or 2); callers guard `a < 3`. -/
def getAx (p : Triple) (a : Nat) : Nat :=
  if a = 0 then p.1 else if a = 1 then p.2.1 else p.2.2

/-- Replace the component of a triple along an axis. -/
def setAx (p : Triple) (a : Nat) (v : Nat) : Triple :=
  if a = 0 then (v, p.2.1, p.2.2) else if a = 1 then (p.1, v, p.2.2) else (p.1, p.2.1, v)

/-- Point (x,y,z) lies inside an array of the given shape. -/
def inB (s : Triple) (x y z : Nat) : Prop := x < s.1 ∧ y < s.2.1 ∧ z < s.2.2

instance (s : Triple) (x y z : Nat) : Decidable (inB s x y z) := by
  unfold inB; infer_instance

/-- A dense 3-d array: a shape plus a total valuation.  `val` returns the
array's cell value at in-bounds coordinates; every constructor in this file
produces `d₀` (the element default) out of bounds. -/
structure Grid (α : Type) where
  shape : Triple
  val : Nat → Nat → Nat → α

/-- Build a grid whose valuation is forced to the default outside the shape. -/
def mkGrid {α : Type} (d : α) (s : Triple) (f : Nat → Nat → Nat → α) : Grid α :=
  ⟨s, fun x y z => if inB s x y z then f x y z else d⟩

/-- Number of elements of an array of this shape. -/
def size3 (s : Triple) : Nat := s.1 * s.2.1 * s.2.2

/-- C-order flattening of an array into a list of its elements: the source's
`ndarray.tobytes()` (composed with `zlib.compress`, modelled as identity). -/
def gridToList {α : Type} (g : Grid α) : List α :=
  (List.range (size3 g.shape)).map fun i =>
    g.val (i / (g.shape.2.1 * g.shape.2.2)) (i / g.shape.2.2 % g.shape.2.1) (i % g.shape.2.2)

/-- C-order reinterpretation of a flat list as an array of the given shape:
the source's `np.frombuffer(...).reshape(shape)` (after `zlib.decompress`). -/
def listToGrid {α : Type} (d : α) (s : Triple) (l : List α) : Grid α :=
  mkGrid d s fun x y z => l.getD ((x * s.2.1 + y) * s.2.2 + z) d

/-- All-zero array, as built by `np.zeros(shape, dtype=np.uint8)`. -/
def zerosGrid (s : Triple) : Grid Nat := mkGrid 0 s fun _ _ _ => 0

/-- Out of bounds, the valuation is the default 0 (true of every grid this
file constructs; arrays have no out-of-bounds values). -/
def Grid.Norm (g : Grid Nat) : Prop := ∀ x y z, ¬ inB g.shape x y z → g.val x y z = 0

/-- All values fit in a uint8 cell. -/
def Grid.Range8 (g : Grid Nat) : Prop := ∀ x y z, g.val x y z < 256

/-! ## Cursor (`Drawing.set_cursor` / `move_cursor`, drawing.py lines 115-136) -/

/-- Cursor positions are Python ints; `set_cursor` does not clamp, so they can
leave the store bounds and even go negative. -/
abbrev Cursor := Int × Int × Int

/-- Cursor component along an axis. -/
def getAxI (c : Cursor) (a : Nat) : Int :=
  if a = 0 then c.1 else if a = 1 then c.2.1 else c.2.2

/-- `Drawing.set_cursor(x, y, z)`: components given as `None` keep their old
value; given components are stored as passed, without clamping. -/
def setCursorOpt (c : Cursor) (x y z : Option Int) : Cursor :=
  (x.getD c.1, y.getD c.2.1, z.getD c.2.2)

/-- `Drawing.set_cursor_axis(axis, pos)`: set only one component. -/
def setCursorAxis (c : Cursor) (axis : Nat) (pos : Int) : Cursor :=
  setCursorOpt c (if axis = 0 then some pos else none)
    (if axis = 1 then some pos else none) (if axis = 2 then some pos else none)

/-- Python `int + delta` where `delta` may be `None`: adding `None` raises a
`TypeError`, modelled as `none`. -/
def addOpt (x : Int) : Option Int → Option Int
  | some d => some (x + d)
  | none => none

/-- Core of `Drawing.move_cursor(dx, dy, dz)`: each component is clamped to
`[0, extent-1]` of the current shape.  The deltas are `Option Int` because
`move_cursor_axis` forwards `None` for the untouched axes, which makes the
additions raise `TypeError` (hence the `Option` result). -/
def moveCursorOpt (shape : Triple) (c : Cursor) (dx dy dz : Option Int) : Option Cursor := do
  let x ← addOpt c.1 dx
  let y ← addOpt c.2.1 dy
  let z ← addOpt c.2.2 dz
  pure (min ((shape.1 : Int) - 1) (max 0 x),
        min ((shape.2.1 : Int) - 1) (max 0 y),
        min ((shape.2.2 : Int) - 1) (max 0 z))

/-- `Drawing.move_cursor` with all three deltas given (the direct-call case). -/
def moveCursor (shape : Triple) (c : Cursor) (dx dy dz : Int) : Cursor :=
  (min ((shape.1 : Int) - 1) (max 0 (c.1 + dx)),
   min ((shape.2.1 : Int) - 1) (max 0 (c.2.1 + dy)),
   min ((shape.2.2 : Int) - 1) (max 0 (c.2.2 + dz)))

/-- `Drawing.move_cursor_axis(axis, delta)`: passes `delta` for the given axis
and `None` for the two others into `move_cursor`, whose unconditional
`x + dx` additions then raise `TypeError` on the `None` components. -/
def moveCursorAxis (shape : Triple) (c : Cursor) (axis : Nat) (delta : Int) : Option Cursor :=
  moveCursorOpt shape c (if axis = 0 then some delta else none)
    (if axis = 1 then some delta else none) (if axis = 2 then some delta else none)

/-! ## Hidden-layer bookkeeping (drawing.py lines 55-57, 108-113, 287-320) -/

/-- Per-axis hidden layer index lists (kept sorted by `_update_hidden_layers`). -/
abbrev Hidden := List Int × List Int × List Int

def getHid (h : Hidden) (axis : Nat) : List Int :=
  if axis = 0 then h.1 else if axis = 1 then h.2.1 else h.2.2

def setHid (h : Hidden) (axis : Nat) (l : List Int) : Hidden :=
  if axis = 0 then (l, h.2.1, h.2.2) else if axis = 1 then (h.1, l, h.2.2) else (h.1, h.2.1, l)

/-- Insert into a sorted list (helper for Python's `sorted`). -/
def insSorted (x : Int) : List Int → List Int
  | [] => [x]
  | y :: ys => if x ≤ y then x :: y :: ys else y :: insSorted x ys

/-- Python `sorted` on a list of ints (ascending insertion sort). -/
def sortInts (l : List Int) : List Int := l.foldr insSorted []

/-- `Drawing._update_hidden_layers(axis, hidden_layers)`: store the given
layers, sorted, for that axis. -/
def updateHidden (h : Hidden) (axis : Nat) (l : List Int) : Hidden :=
  setHid h axis (sortInts l)

/-- Hidden-index renumbering done by `Drawing._really_insert_layers`: indices
below the insertion point stay, indices at or above it shift up by `n`. -/
def insertHidden (hid : List Int) (index n : Nat) : List Int :=
  let s := sortInts hid
  s.filter (fun l => l < (index : Int)) ++
    (s.filter (fun l => ¬ l < (index : Int))).map (fun l => l + (n : Int))

/-- Hidden-index renumbering done by `Drawing._really_remove_layers`: indices
below the deletion point stay, indices at or above `index + n` shift down by
`n`, and indices inside `[index, index+n)` are dropped. -/
def deleteHidden (hid : List Int) (index n : Nat) : List Int :=
  let s := sortInts hid
  s.filter (fun l => l < (index : Int)) ++
    (s.filter (fun l => (index : Int) + (n : Int) ≤ l)).map (fun l => l - (n : Int))

/-- Whether a cell is masked in `Drawing.data`.
`Drawing._get_masked_data` (drawing.py lines 92-106) builds
`np.ma.masked_array(self._data, fill_value=0)` and, for every axis, masks the
whole slab of each hidden layer of that axis — so a cell is masked when its
coordinate along any axis is hidden. -/
def isHidden (h : Hidden) (x y z : Nat) : Prop :=
  (x : Int) ∈ h.1 ∨ (y : Int) ∈ h.2.1 ∨ (z : Int) ∈ h.2.2

instance (h : Hidden) (x y z : Nat) : Decidable (isHidden h x y z) := by
  unfold isHidden
  infer_instance

/-! ## Cell-level array operations (numpy calls made by drawing.py) -/

/-- The two in-plane axes for a rotation about `axis`:
`(0,1,2)[:axis] + (0,1,2)[axis+1:]` (drawing.py line 223). -/
def rotAxes (axis : Nat) : Nat × Nat :=
  if axis = 0 then (1, 2) else if axis = 1 then (0, 2) else (0, 1)

/-- One counterclockwise quarter turn in the plane of axes `(a, b)`:
`np.rot90(data, 1, (a, b))`.  The rotated array at a point reads the original
with the `a`/`b` components transposed and the `b` component mirrored. -/
def rot90Step (a b : Nat) (g : Grid Nat) : Grid Nat :=
  let sb := getAx g.shape b
  mkGrid 0 (setAx (setAx g.shape a sb) b (getAx g.shape a)) fun x y z =>
    let p := setAx (setAx (x, y, z) a (getAx (x, y, z) b)) b (sb - 1 - getAx (x, y, z) a)
    g.val p.1 p.2.1 p.2.2

/-- `np.rot90(data, amount, axes)` normalizes the turn count to `amount % 4`
(Python `%`, i.e. a value in `[0, 4)` also for negative `amount`). -/
def rotSteps (amount : Int) : Nat := (amount % 4).toNat

/-- `np.rot90(self._data, amount, axes)` with `axes = rotAxes axis`. -/
def rotateCells (amount : Int) (axis : Nat) (g : Grid Nat) : Grid Nat :=
  (rot90Step (rotAxes axis).1 (rotAxes axis).2)^[rotSteps amount] g

/-- `np.flip(self._data, axis)`: mirror the given axis. -/
def flipCells (axis : Nat) (g : Grid Nat) : Grid Nat :=
  mkGrid 0 g.shape fun x y z =>
    let p := setAx (x, y, z) axis (getAx g.shape axis - 1 - getAx (x, y, z) axis)
    g.val p.1 p.2.1 p.2.2

/-- Layer swap performed by `Drawing._really_swap_layers`: the slices at
`index1` and `index2` along `axis` exchange contents. -/
def swapCells (i1 i2 axis : Nat) (g : Grid Nat) : Grid Nat :=
  mkGrid 0 g.shape fun x y z =>
    let i := getAx (x, y, z) axis
    if i = i1 then
      let p := setAx (x, y, z) axis i2
      g.val p.1 p.2.1 p.2.2
    else if i = i2 then
      let p := setAx (x, y, z) axis i1
      g.val p.1 p.2.1 p.2.2
    else g.val x y z

/-- `np.insert(self._data, [index], data, axis)` with `data` holding `n`
slices along `axis`: the new array has those slices at `[index, index+n)`. -/
def insertCells (g D : Grid Nat) (index axis n : Nat) : Grid Nat :=
  mkGrid 0 (setAx g.shape axis (getAx g.shape axis + n)) fun x y z =>
    let i := getAx (x, y, z) axis
    if i < index then g.val x y z
    else if i < index + n then
      let p := setAx (x, y, z) axis (i - index)
      D.val p.1 p.2.1 p.2.2
    else
      let p := setAx (x, y, z) axis (i - n)
      g.val p.1 p.2.1 p.2.2

/-- `np.delete(self._data, index, axis)` with a scalar `index`: removes the
single slice at `index` along `axis` (note: one slice, whatever `n` is). -/
def deleteOneCells (g : Grid Nat) (index axis : Nat) : Grid Nat :=
  mkGrid 0 (setAx g.shape axis (getAx g.shape axis - 1)) fun x y z =>
    let i := getAx (x, y, z) axis
    if i < index then g.val x y z
    else
      let p := setAx (x, y, z) axis (i + 1)
      g.val p.1 p.2.1 p.2.2

/-- `np.take(self.data, indices=[index], axis=axis)`: the slab of one layer,
kept 3-dimensional with extent 1 along `axis`. -/
def takeLayer (g : Grid Nat) (index axis : Nat) : Grid Nat :=
  mkGrid 0 (setAx g.shape axis 1) fun x y z =>
    let p := setAx (x, y, z) axis index
    g.val p.1 p.2.1 p.2.2

/-! ## Slices, palette, tools -/

/-- A 3-d slice `(slice(x0,x1), slice(y0,y1), slice(z0,z1))`, half-open. -/
abbrev Box := (Nat × Nat) × (Nat × Nat) × (Nat × Nat)

/-- A point lies inside the box. -/
def inBox (b : Box) (x y z : Nat) : Prop :=
  b.1.1 ≤ x ∧ x < b.1.2 ∧ b.2.1.1 ≤ y ∧ y < b.2.1.2 ∧ b.2.2.1 ≤ z ∧ z < b.2.2.2

instance (b : Box) (x y z : Nat) : Decidable (inBox b x y z) := by
  unfold inBox; infer_instance

/-- Shape of the boxed region, per `LayerEdit.perform`'s
`abs(sx.stop - sx.start)` (etc.); for ordered slices this is `stop - start`. -/
def boxShape (b : Box) : Triple :=
  (max b.1.1 b.1.2 - min b.1.1 b.1.2,
   max b.2.1.1 b.2.1.2 - min b.2.1.1 b.2.1.2,
   max b.2.2.1 b.2.2.2 - min b.2.2.1 b.2.2.2)

/-- A slice is well formed for a shape when each range is ordered and lies
inside the array; numpy raises a shape-mismatch error otherwise when the
slice's contents and a buffer of the slice's nominal shape meet. -/
def slcWF (s : Triple) (b : Box) : Prop :=
  b.1.1 ≤ b.1.2 ∧ b.1.2 ≤ s.1 ∧ b.2.1.1 ≤ b.2.1.2 ∧ b.2.1.2 ≤ s.2.1 ∧
    b.2.2.1 ≤ b.2.2.2 ∧ b.2.2.2 ≤ s.2.2

instance (s : Triple) (b : Box) : Decidable (slcWF s b) := by
  unfold slcWF; infer_instance

/-- `Drawing.full_slice`: the slice covering the whole array. -/
def fullSlice (s : Triple) : Box := ((0, s.1), (0, s.2.1), (0, s.2.2))

/-- RGBA palette entry. -/
abbrev Color := Nat × Nat × Nat × Nat

/-- `Palette.set_colors(start_i, colors)` (palette.py lines 61-64):
`_colors[:start_i] + colors + _colors[start_i+n:]`. -/
def setColors (pal : List Color) (startI : Nat) (colors : List Color) : List Color :=
  pal.take startI ++ colors ++ pal.drop (startI + colors.length)

/-- The `DEFAULT_COLORS` table of palette.py. -/
def DEFAULT_COLORS : List Color :=
  [(170, 170, 170, 0), (255, 255, 255, 255), (101, 101, 101, 255), (223, 223, 223, 255),
   (207, 48, 69, 255), (223, 138, 69, 255), (207, 223, 69, 255), (138, 138, 48, 255),
   (48, 138, 69, 255), (69, 223, 69, 255), (69, 223, 207, 255), (48, 138, 207, 255),
   (138, 138, 223, 255), (69, 48, 207, 255), (207, 48, 207, 255), (223, 138, 207, 255),
   (227, 227, 227, 255), (223, 223, 223, 255), (223, 223, 223, 255), (195, 195, 195, 255),
   (178, 178, 178, 255), (170, 170, 170, 255), (146, 146, 146, 255), (130, 130, 130, 255),
   (113, 113, 113, 255), (113, 113, 113, 255), (101, 101, 101, 255), (81, 81, 81, 255),
   (65, 65, 65, 255), (48, 48, 48, 255), (32, 32, 32, 255), (32, 32, 32, 255),
   (243, 0, 0, 255)]

/-- `Palette.__init__`: the color table padded with `(0,0,0,255)` to 256. -/
def defaultPalette : List Color :=
  DEFAULT_COLORS ++ List.replicate (256 - DEFAULT_COLORS.length) (0, 0, 0, 255)

/-- The part of a Tool that edits record (`tool.color`, edit.py line 36). -/
structure Tool where
  color : Nat

/-! ## Edit records (edit.py) -/

/-- The closed family of reversible edit records of edit.py.  Compressed byte
payloads are modelled as the flat (C-order) element lists they decompress to. -/
inductive Edit where
  | layer (slc : Box) (diff : List Int) (color : Nat) (version : Nat)
  | palette (startIndex : Nat) (origData : List Color) (data : List Color) (version : Nat)
  | layerSwap (index1 index2 axis : Nat) (version : Nat)
  | layersDelete (index axis n : Nat) (data : List Nat) (version : Nat)
  | layersInsert (index axis n : Nat) (data : List Nat) (version : Nat)
  | drawingRotate (amount : Int) (axis : Nat) (version : Nat)
  | drawingFlip (axis : Nat) (version : Nat)

/-- The version stamp an edit carries (set to the drawing's version at
creation by `Edit.create`). -/
def Edit.version : Edit → Nat
  | .layer _ _ _ v => v
  | .palette _ _ _ v => v
  | .layerSwap _ _ _ v => v
  | .layersDelete _ _ _ _ v => v
  | .layersInsert _ _ _ _ v => v
  | .drawingRotate _ _ v => v
  | .drawingFlip _ v => v

/-! ## The Drawing (drawing.py) -/

/-- The store: cell buffer, palette color table, per-axis hidden layers,
cursor, version counter, undo/redo stacks, dirty region. -/
structure Drawing where
  cells : Grid Nat
  palette : List Color
  hidden : Hidden
  cursor : Cursor
  version : Nat
  undos : List Edit
  redos : List Edit
  dirty : Option Box

/-- Modelled from the spec: `slice_union` is defined in `voxpaint/util.py`,
which is not among the sources; per the spec the store "unions the affected
region into its dirty region" and the dirty region is "a 3D box (per-axis
half-open ranges)".  A `none` affected region leaves the dirty region as is;
the union is the smallest covering box, clipped to the store's shape. -/
def sliceUnion (slc : Option Box) (dirty : Option Box) (shape : Triple) : Option Box :=
  let clip : Box → Box := fun b =>
    ((min b.1.1 shape.1, min b.1.2 shape.1),
     (min b.2.1.1 shape.2.1, min b.2.1.2 shape.2.1),
     (min b.2.2.1 shape.2.2, min b.2.2.2 shape.2.2))
  match slc, dirty with
  | none, dd => dd
  | some b, none => some (clip b)
  | some b, some c =>
    some (clip ((min b.1.1 c.1.1, max b.1.2 c.1.2),
                (min b.2.1.1 c.2.1.1, max b.2.1.2 c.2.1.2),
                (min b.2.2.1 c.2.2.1, max b.2.2.2 c.2.2.2)))

/-- `Drawing._really_rotate`'s hidden-layer loop for positive `amount`
(drawing.py lines 228-230): each turn simultaneously sets
`(sb, lb), (sa, la) = (sa, la), (sb, [sb-1-i for i in lb])`. -/
def rotHidPos : Nat → (Nat × List Int) → (Nat × List Int) → ((Nat × List Int) × (Nat × List Int))
  | 0, A, B => (A, B)
  | k + 1, (sa, la), (sb, lb) =>
    rotHidPos k (sb, lb.map (fun i => (sb : Int) - 1 - i)) (sa, la)

/-- The loop for negative `amount` (drawing.py lines 231-233): each turn sets
`(sb, lb), (sa, la) = (sa, [sa-1-i for i in la]), (sb, lb)`. -/
def rotHidNeg : Nat → (Nat × List Int) → (Nat × List Int) → ((Nat × List Int) × (Nat × List Int))
  | 0, A, B => (A, B)
  | k + 1, (sa, la), (sb, lb) =>
    rotHidNeg k (sb, lb) (sa, la.map (fun i => (sa : Int) - 1 - i))

/-- `Drawing._really_rotate(amount, axis)`: rotate the cells a quarter turn
`amount` times in the plane of the two non-`axis` axes and remap the two
affected hidden-layer lists.  The extents seeding the remap loop are read
from `self.shape` (drawing.py line 227) *after* `np.rot90` has replaced
`self._data` (line 224), i.e. they are the post-rotation extents; the
hidden-layer lists themselves are still the pre-rotation ones. -/
def reallyRotate (d : Drawing) (amount : Int) (axis : Nat) : Drawing :=
  let aa := (rotAxes axis).1
  let ab := (rotAxes axis).2
  let cells' := rotateCells amount axis d.cells
  let A := (getAx cells'.shape aa, getHid d.hidden aa)
  let B := (getAx cells'.shape ab, getHid d.hidden ab)
  let r := if amount > 0 then rotHidPos amount.toNat A B else rotHidNeg (-amount).toNat A B
  let h1 := updateHidden d.hidden aa r.1.2
  let h2 := updateHidden h1 ab r.2.2
  { d with cells := cells', hidden := h2 }

/-- `Drawing._really_flip(axis)`: mirror the cells and the hidden layers. -/
def reallyFlip (d : Drawing) (axis : Nat) : Drawing :=
  let size := getAx d.cells.shape axis
  { d with cells := flipCells axis d.cells,
           hidden := updateHidden d.hidden axis
             ((getHid d.hidden axis).map (fun i => (size : Int) - 1 - i)) }

/-- `Drawing._really_swap_layers(index1, index2, axis)`: swap the two slices
and transfer a hidden flag held by exactly one of them. -/
def reallySwapLayers (d : Drawing) (i1 i2 axis : Nat) : Drawing :=
  let hid := getHid d.hidden axis
  let hid' :=
    if (i1 : Int) ∈ hid ∧ (i2 : Int) ∉ hid then
      hid.filter (fun l => l ≠ (i1 : Int)) ++ [(i2 : Int)]
    else if (i1 : Int) ∉ hid ∧ (i2 : Int) ∈ hid then
      hid.filter (fun l => l ≠ (i2 : Int)) ++ [(i1 : Int)]
    else hid
  { d with cells := swapCells i1 i2 axis d.cells,
           hidden := updateHidden d.hidden axis hid' }

/-- `Drawing._really_insert_layers(data, index, axis, n)`: reshape the flat
payload to `n` slices (`none` on size mismatch), insert them at `index`
(`none` if `index` exceeds the extent, as `np.insert` raises), renumber the
hidden layers, and move the cursor when it sat at or above the insertion
point — which calls the `None`-forwarding `move_cursor_axis` and so raises. -/
def reallyInsertLayers (d : Drawing) (bytes : List Nat) (index axis n : Nat) : Option Drawing :=
  let targetShape := setAx d.cells.shape axis n
  if bytes.length = size3 targetShape ∧ index ≤ getAx d.cells.shape axis then
    let D := listToGrid 0 targetShape bytes
    let d' := { d with cells := insertCells d.cells D index axis n,
                       hidden := updateHidden d.hidden axis
                         (insertHidden (getHid d.hidden axis) index n) }
    if getAxI d.cursor axis ≥ (index : Int) + (n : Int) then
      (moveCursorAxis d'.cells.shape d'.cursor axis (n : Int)).map
        (fun c => { d' with cursor := c })
    else some d'
  else none

/-- `Drawing._really_remove_layers(index, axis, n)`: delete the single slice
at `index` (`np.delete` with a scalar index; `none` if out of range), shift
the hidden layers by `n`, and fix up the cursor — the `elif` branch calls the
`None`-forwarding `move_cursor_axis` and so raises. -/
def reallyRemoveLayers (d : Drawing) (index axis n : Nat) : Option Drawing :=
  if index < getAx d.cells.shape axis then
    let d' := { d with cells := deleteOneCells d.cells index axis,
                       hidden := updateHidden d.hidden axis
                         (deleteHidden (getHid d.hidden axis) index n) }
    if (index : Int) ≤ getAxI d.cursor axis ∧ getAxI d.cursor axis < (index : Int) + (n : Int) then
      some { d' with cursor := (setCursorAxis d'.cursor axis
               (min (index : Int) ((getAx d'.cells.shape axis : Int) - 1))) }
    else if getAxI d.cursor axis ≥ (index : Int) + (n : Int) then
      (moveCursorAxis d'.cells.shape d'.cursor axis (-(n : Int))).map
        (fun c => { d' with cursor := c })
    else some d'
  else none

/-! ## perform / revert (edit.py) -/

/-- Wrap an integer into numpy's int16 range (two's complement). -/
def i16 (x : Int) : Int := (x + 32768) % 65536 - 32768

/-- `LayerEdit.perform`'s cell update:
`drawing.data[slc] = np.add(drawing.data[slc], diff, casting="unsafe")` —
inside the slice each uint8 cell becomes `(cell + diff) mod 256`. -/
def addDiff (g : Grid Nat) (slc : Box) (D : Grid Int) : Grid Nat :=
  mkGrid 0 g.shape fun x y z =>
    if inBox slc x y z then
      (((g.val x y z : Int) + D.val (x - slc.1.1) (y - slc.2.1.1) (z - slc.2.2.1)) % 256).toNat
    else g.val x y z

/-- `LayerEdit.revert`'s cell update: subtract the diff, mod 256. -/
def subDiff (g : Grid Nat) (slc : Box) (D : Grid Int) : Grid Nat :=
  mkGrid 0 g.shape fun x y z =>
    if inBox slc x y z then
      (((g.val x y z : Int) - D.val (x - slc.1.1) (y - slc.2.1.1) (z - slc.2.2.1)) % 256).toNat
    else g.val x y z

/-- `Edit.perform(drawing)`: apply the edit, returning the updated drawing and
the affected region it reports (`none` models Python `None`, returned by
palette, rotate and flip edits).  A `none` result models a raised exception
(reshape size mismatch, out-of-range index, or the `move_cursor_axis`
`TypeError`). -/
def performEdit (e : Edit) (d : Drawing) : Option (Drawing × Option Box) :=
  match e with
  | .layer slc diff _ _ =>
    if diff.length = size3 (boxShape slc) ∧ slcWF d.cells.shape slc then
      let D := listToGrid 0 (boxShape slc) diff
      some ({ d with cells := addDiff d.cells slc D }, some slc)
    else none
  | .palette startIndex _ data _ =>
    some ({ d with palette := setColors d.palette startIndex data }, none)
  | .layerSwap i1 i2 axis _ =>
    if axis < 3 ∧ i1 < getAx d.cells.shape axis ∧ i2 < getAx d.cells.shape axis then
      some (reallySwapLayers d i1 i2 axis, some (fullSlice d.cells.shape))
    else none
  | .layersDelete index axis n _ _ =>
    if axis < 3 then
      (reallyRemoveLayers d index axis n).map fun d' => (d', some (fullSlice d'.cells.shape))
    else none
  | .layersInsert index axis n bytes _ =>
    if axis < 3 then
      (reallyInsertLayers d bytes index axis n).map fun d' => (d', some (fullSlice d'.cells.shape))
    else none
  | .drawingRotate amount axis _ =>
    if axis < 3 then some (reallyRotate d amount axis, none) else none
  | .drawingFlip axis _ =>
    if axis < 3 then some (reallyFlip d axis, none) else none

/-- `Edit.revert(drawing)`: the inverse operation of each record —
`LayerEdit` subtracts its diff, `PaletteEdit` restores the old colors,
`LayerSwapEdit` and `DrawingFlipEdit` re-apply themselves,
`LayersDeleteEdit` re-inserts the captured slab, `LayersInsertEdit` deletes,
and `DrawingRotateEdit` rotates by `-amount`. -/
def revertEdit (e : Edit) (d : Drawing) : Option (Drawing × Option Box) :=
  match e with
  | .layer slc diff _ _ =>
    if diff.length = size3 (boxShape slc) ∧ slcWF d.cells.shape slc then
      let D := listToGrid 0 (boxShape slc) diff
      some ({ d with cells := subDiff d.cells slc D }, some slc)
    else none
  | .palette startIndex origData _ _ =>
    some ({ d with palette := setColors d.palette startIndex origData }, none)
  | .layerSwap i1 i2 axis _ =>
    if axis < 3 ∧ i1 < getAx d.cells.shape axis ∧ i2 < getAx d.cells.shape axis then
      some (reallySwapLayers d i1 i2 axis, some (fullSlice d.cells.shape))
    else none
  | .layersDelete index axis n bytes _ =>
    if axis < 3 then
      (reallyInsertLayers d bytes index axis n).map fun d' => (d', some (fullSlice d'.cells.shape))
    else none
  | .layersInsert index axis n _ _ =>
    if axis < 3 then
      (reallyRemoveLayers d index axis n).map fun d' => (d', some (fullSlice d'.cells.shape))
    else none
  | .drawingRotate amount axis _ =>
    if axis < 3 then some (reallyRotate d (-amount) axis, none) else none
  | .drawingFlip axis _ =>
    if axis < 3 then some (reallyFlip d axis, none) else none

/-! ## Drawing-level edit protocol (drawing.py lines 205-350) -/

/-- The forward operations that create and apply edits. -/
inductive Op where
  | modify (slc : Box) (data : Grid Nat) (tool : Tool)
  | changeColors (startI : Nat) (colors : List Color)
  | moveLayer (fromIndex toIndex axis : Nat)
  | insertLayers (index axis n : Nat)
  | deleteLayers (index axis n : Nat)
  | rotate (amount : Int) (axis : Nat)
  | flip (axis : Nat)

/-- `LayerEdit.create(drawing, slc, data, tool)`: the stored diff is the
int16 array `data - data.astype(bool) * drawing.data[slc]`, flattened
(`tobytes` then compressed).  `drawing.data` is the hidden-layer-masked
array; the mask propagates through the arithmetic, and `diff.tobytes()`
writes the fill value 0 at every masked (hidden) position of the slice, so
the stored entry there is 0 rather than the formula.  Mismatched
region/data shapes make the numpy broadcast raise, modelled by the guard. -/
def layerEditCreate (d : Drawing) (slc : Box) (data : Grid Nat) (t : Tool) : Option Edit :=
  if slcWF d.cells.shape slc ∧ data.shape = boxShape slc then
    let diffG : Grid Int := mkGrid 0 data.shape fun i j k =>
      if isHidden d.hidden (slc.1.1 + i) (slc.2.1.1 + j) (slc.2.2.1 + k) then 0
      else
        i16 ((data.val i j k : Int) -
          (if data.val i j k ≠ 0 then 1 else 0) *
            (d.cells.val (slc.1.1 + i) (slc.2.1.1 + j) (slc.2.2.1 + k) : Int))
    some (.layer slc (gridToList diffG) t.color d.version)
  else none

/-- `np.take(drawing.data, indices=[index], axis=axis)` followed by
`.tobytes()` in `LayersDeleteEdit.create` (edit.py lines 102-111): the slab
is taken from the hidden-layer-masked array, and `tobytes` fills every
masked cell with the fill value 0, so hidden cells are captured as 0. -/
def maskedTakeLayer (d : Drawing) (index axis : Nat) : Grid Nat :=
  mkGrid 0 (setAx d.cells.shape axis 1) fun x y z =>
    let p := setAx (x, y, z) axis index
    if isHidden d.hidden p.1 p.2.1 p.2.2 then 0 else d.cells.val p.1 p.2.1 p.2.2

/-- Edit creation for each forward operation, with the drawing's current
version stamped in (`Edit.create`).  `none` models an exception raised while
building the edit (bad slice, axis, or index). -/
def createEdit (d : Drawing) : Op → Option Edit
  | .modify slc data t => layerEditCreate d slc data t
  | .changeColors startI colors =>
    some (.palette startI ((d.palette.drop startI).take colors.length) colors d.version)
  | .moveLayer fromIndex toIndex axis => some (.layerSwap fromIndex toIndex axis d.version)
  | .insertLayers index axis n =>
    if axis < 3 then
      some (.layersInsert index axis n (gridToList (zerosGrid (setAx d.cells.shape axis n)))
        d.version)
    else none
  | .deleteLayers index axis n =>
    if axis < 3 ∧ index < getAx d.cells.shape axis then
      some (.layersDelete index axis n (gridToList (maskedTakeLayer d index axis)) d.version)
    else none
  | .rotate amount axis => some (.drawingRotate amount axis d.version)
  | .flip axis => some (.drawingFlip axis d.version)

/-- `Drawing._perform_edit(edit)`: assert the version stamp, perform, union
the affected region into the dirty region, bump the version, push onto the
undo stack, clear the redo stack. -/
def performEditTop (d : Drawing) (e : Edit) : Option Drawing :=
  if d.version = e.version then
    (performEdit e d).map fun r =>
      { r.1 with dirty := sliceUnion r.2 r.1.dirty r.1.cells.shape,
                 version := d.version + 1, undos := e :: r.1.undos, redos := [] }
  else none

/-- One forward mutating call (`modify`, `change_colors`, `move_layer`,
`insert_layers`, `delete_layers`, `rotate`, `flip`): create the edit, then
`_perform_edit` it. -/
def applyOp (d : Drawing) (o : Op) : Option Drawing :=
  (createEdit d o).bind (performEditTop d)

/-- A sequence of forward calls, failing as soon as one raises. -/
def applyOps (d : Drawing) (ops : List Op) : Option Drawing :=
  ops.foldl (fun acc o => acc.bind (fun s => applyOp s o)) (some d)

/-- `Drawing.undo()`: an empty undo stack is a caught `IndexError` (a no-op);
otherwise pop, assert the version stamp, revert, push onto the redo stack,
union the region into dirty, and reset the version to the edit's stamp. -/
def undo (d : Drawing) : Option Drawing :=
  match d.undos with
  | [] => some d
  | e :: rest =>
    if d.version = e.version + 1 then
      (revertEdit e { d with undos := rest }).map fun r =>
        { r.1 with redos := e :: r.1.redos,
                   dirty := sliceUnion r.2 r.1.dirty r.1.cells.shape,
                   version := e.version }
    else none

/-- `undo()` iterated `n` times. -/
def undoN : Nat → Drawing → Option Drawing
  | 0, d => some d
  | k + 1, d => (undo d).bind (undoN k)

/-- `Drawing.redo()`: an empty redo stack is a caught `IndexError` (a no-op);
otherwise pop, assert the version stamp, perform, push onto the undo stack,
union the region into dirty, increment the version. -/
def redo (d : Drawing) : Option Drawing :=
  match d.redos with
  | [] => some d
  | e :: rest =>
    if d.version = e.version then
      (performEdit e { d with redos := rest }).map fun r =>
        { r.1 with undos := e :: r.1.undos,
                   dirty := sliceUnion r.2 r.1.dirty r.1.cells.shape,
                   version := d.version + 1 }
    else none

/-! ## Layer visibility (drawing.py lines 352-370) -/

/-- `Drawing.hide_layer(index, axis)`: add the index to the axis' hidden set
(sets do not duplicate) and store it sorted.  Only `hidden` changes. -/
def hideLayer (d : Drawing) (index : Int) (axis : Nat) : Drawing :=
  let hid := getHid d.hidden axis
  { d with hidden := updateHidden d.hidden axis (if index ∈ hid then hid else hid ++ [index]) }

/-- `Drawing.show_layer(index, axis)`: discard the index from the hidden set. -/
def showLayer (d : Drawing) (index : Int) (axis : Nat) : Drawing :=
  { d with hidden := updateHidden d.hidden axis ((getHid d.hidden axis).filter (· ≠ index)) }

/-- `Drawing.layer_visible(index, axis)`. -/
def layerVisible (d : Drawing) (index : Int) (axis : Nat) : Bool :=
  decide (index ∉ getHid d.hidden axis)

/-- `Drawing.toggle_layer(index, axis)`. -/
def toggleLayer (d : Drawing) (index : Int) (axis : Nat) : Drawing :=
  if layerVisible d index axis then hideLayer d index axis else showLayer d index axis

/-! ## Construction and cursor methods -/

/-- `Drawing(size=shape)`: zeroed cells, default palette, nothing hidden,
cursor at the origin, version 0, empty stacks, everything dirty. -/
def mkDrawing (s : Triple) : Drawing :=
  { cells := zerosGrid s, palette := defaultPalette, hidden := ([], [], []),
    cursor := (0, 0, 0), version := 0, undos := [], redos := [],
    dirty := some (fullSlice s) }

/-- `Drawing.set_cursor(x, y, z)` as a store method. -/
def Drawing.setCursor (d : Drawing) (x y z : Option Int) : Drawing :=
  { d with cursor := setCursorOpt d.cursor x y z }

/-- `Drawing.move_cursor(dx, dy, dz)` as a store method. -/
def Drawing.moveCursor (d : Drawing) (dx dy dz : Int) : Drawing :=
  { d with cursor := Voxpaint.moveCursor d.cells.shape d.cursor dx dy dz }

/-- `Drawing.modify(slc, data, tool)` — the store's three-argument method. -/
def Drawing.modify (d : Drawing) (slc : Box) (data : Grid Nat) (t : Tool) : Option Drawing :=
  applyOp d (.modify slc data t)

/-! ## The view (view.py) -/

/-- `DrawingView`: a rotation triple over a drawing (the fields the modelled
methods touch; pan/zoom and the overlay are presentation state). -/
structure DrawingView where
  drawing : Drawing
  rotation : Nat × Nat × Nat

/-- `DrawingView.set_cursor` forwards to `Drawing.set_cursor` unchanged. -/
def DrawingView.setCursor (v : DrawingView) (x y z : Option Int) : DrawingView :=
  { v with drawing := v.drawing.setCursor x y z }

/-- `DrawingView.move_cursor` forwards to `Drawing.move_cursor` unchanged. -/
def DrawingView.moveCursor (v : DrawingView) (dx dy dz : Int) : DrawingView :=
  { v with drawing := v.drawing.moveCursor dx dy dz }

/-- A Python positional argument as passed between view and drawing. -/
inductive PyArg where
  | slc (s : Box)
  | grid (g : Grid Nat)
  | rot (r : Nat × Nat × Nat)
  | tool (t : Tool)

/-- Calling `Drawing.modify` with a positional argument list: the method
signature is `modify(self, slc, data, tool)`, so exactly a slice, an array
and a tool are accepted; any other argument list raises `TypeError`,
modelled as `none` (the outer `Option`).  On a match the call runs and
returns the inner result. -/
def Drawing.modifyCall (d : Drawing) (args : List PyArg) : Option (Option Drawing) :=
  match args with
  | [.slc slc, .grid data, .tool t] => some (d.modify slc data t)
  | _ => none

/-- `DrawingView.modify(slc3, data, tool)` (view.py line 178): forwards
`(slc3, data, self.rotation, tool)` — four positional arguments — to
`Drawing.modify`. -/
def DrawingView.modifyFwd (v : DrawingView) (slc3 : Box) (data : Grid Nat) (t : Tool) :
    Option (Option Drawing) :=
  v.drawing.modifyCall [.slc slc3, .grid data, .rot v.rotation, .tool t]

/-! ## View direction (view.py lines 100-119)

`DrawingView._get_direction` rotates the up vector `(0,0,1)` with euclid3's
`Vector3.rotate_around` at angles `-r*pi/2`.  All intermediate values are
the integers 0 and ±1 (cosines and sines of multiples of 90°), so the float
computation is embedded exactly over `Int`; the final `int(a)` truncation is
the identity on these integers. -/

/-- An integer vector. -/
abbrev Vec3 := Int × Int × Int

/-- Exact `cos(r * pi/2)`. -/
def cosQ (r : Nat) : Int :=
  if r % 4 = 0 then 1 else if r % 4 = 1 then 0 else if r % 4 = 2 then -1 else 0

/-- Exact `sin(r * pi/2)`. -/
def sinQ (r : Nat) : Int :=
  if r % 4 = 0 then 0 else if r % 4 = 1 then 1 else if r % 4 = 2 then 0 else -1

/-- euclid3 `Vector3.rotate_around(axis, theta)` (Rodrigues, right-hand rule)
for a unit integer axis, at `theta = -r * pi/2`:
`a*(a.v)*(1-c) + v*c + (a x v)*s` with `c = cos(-r*pi/2)`, `s = sin(-r*pi/2)`. -/
def rotateAround (v a : Vec3) (r : Nat) : Vec3 :=
  let c := cosQ r
  let s := -sinQ r
  let dt := (a.1 * v.1 + a.2.1 * v.2.1 + a.2.2 * v.2.2) * (1 - c)
  (a.1 * dt + v.1 * c + (a.2.1 * v.2.2 - a.2.2 * v.2.1) * s,
   a.2.1 * dt + v.2.1 * c + (a.2.2 * v.1 - a.1 * v.2.2) * s,
   a.2.2 * dt + v.2.2 * c + (a.1 * v.2.1 - a.2.1 * v.1) * s)

/-- `DrawingView._get_direction(rotation)`: start from `(0,0,1)` and rotate
about the y axis, then the x axis, then the z axis (each step guarded by the
component being nonzero, and by `-r * 90°`). -/
def getDirection (rot : Nat × Nat × Nat) : Vec3 :=
  let v0 : Vec3 := (0, 0, 1)
  let v1 := if rot.2.1 ≠ 0 then rotateAround v0 (0, 1, 0) rot.2.1 else v0
  let v2 := if rot.1 ≠ 0 then rotateAround v1 (1, 0, 0) rot.1 else v1
  if rot.2.2 ≠ 0 then rotateAround v2 (0, 0, 1) rot.2.2 else v2

/-- Modelled from the spec: the spec's words for `direction` compose "three
elementary 90° rotations (about x, then y, then z) applied to the canonical
up vector (0,0,1)" — the same per-axis rotation primitive, applied in x, y,
z order. -/
def specDirection (rot : Nat × Nat × Nat) : Vec3 :=
  let v0 : Vec3 := (0, 0, 1)
  let v1 := if rot.1 ≠ 0 then rotateAround v0 (1, 0, 0) rot.1 else v0
  let v2 := if rot.2.1 ≠ 0 then rotateAround v1 (0, 1, 0) rot.2.1 else v1
  if rot.2.2 ≠ 0 then rotateAround v2 (0, 0, 1) rot.2.2 else v2

/-- The six canonical axis directions. -/
def canonicalDirs : List Vec3 :=
  [(1, 0, 0), (-1, 0, 0), (0, 1, 0), (0, -1, 0), (0, 0, 1), (0, 0, -1)]

/-- Well-formedness of a forward operation relative to the store's palette
size: palette writes stay inside the color table and structural layer edits
insert/delete a single layer (the counts all call sites use). -/
def OpOK (P : Nat) : Op → Prop
  | .changeColors startI colors => startI + colors.length ≤ P
  | .insertLayers _ _ n => n = 1
  | .deleteLayers _ _ n => n = 1
  | _ => True

/-- Componentwise order on cursors. -/
def curLE (c c' : Cursor) : Prop := c.1 ≤ c'.1 ∧ c.2.1 ≤ c'.2.1 ∧ c.2.2 ≤ c'.2.2

/-- A sample freshly constructed view over a 2×2×2 drawing. -/
def sampleView : DrawingView := ⟨mkDrawing (2, 2, 2), (0, 0, 0)⟩

/-- Flip-then-undo demo state: the drawing after `flip(0)` on a fresh 1×1×1
store (version 1). -/
def c3d1 : Drawing := (applyOp (mkDrawing (1, 1, 1)) (.flip 0)).getD (mkDrawing (1, 1, 1))

/-- The state after undoing the flip (version back to 0). -/
def c3d2 : Drawing := (undo c3d1).getD c3d1

/-- A fresh all-zero 1×1×2 drawing. -/
def swapDemo : Drawing := mkDrawing (1, 1, 2)

/-- Result of performing a swap of layers 0 and 1 (axis 2) on `swapDemo`. -/
def swapDemoRes : Drawing × Option Box :=
  (performEdit (.layerSwap 0 1 2 0) swapDemo).getD (swapDemo, none)

/-- Result of performing a one-cell diff edit on a fresh 1×1×1 drawing. -/
def layerDemoRes : Drawing × Option Box :=
  (performEdit (.layer ((0, 1), (0, 1), (0, 1)) [5] 0 0) (mkDrawing (1, 1, 1))).getD
    (mkDrawing (1, 1, 1), none)

/-- Insert-two-layers demo: the drawing after `insert_layers(0, 2, 2)` on a
fresh 1×1×1 store (shape 1×1×3). -/
def c1d1 : Drawing := (applyOps (mkDrawing (1, 1, 1)) [Op.insertLayers 0 2 2]).getD
  (mkDrawing (1, 1, 1))

/-- The state after one undo of the two-layer insert: `np.delete` removes a
single layer, so the shape is 1×1×2, not the original 1×1×1. -/
def c1d2 : Drawing := (undoN 1 c1d1).getD c1d1

/-- The drawing after `flip(0)` on a fresh 1×1×1 store, for the round-trip
witness. -/
def c1wApplied : Drawing := (applyOps (mkDrawing (1, 1, 1)) [Op.flip 0]).getD (mkDrawing (1, 1, 1))

/-- Palette-overflow demo: the drawing after `change_colors(256, c)` on a
fresh 1×1×1 store — the slice assignment grows the palette to 257 colors. -/
def c1p1 : Drawing :=
  (applyOps (mkDrawing (1, 1, 1)) [Op.changeColors 256 [(1, 2, 3, 4)]]).getD
    (mkDrawing (1, 1, 1))

/-- The state after undoing the overflowing palette write: the captured
original range `palette[256:257]` was empty, so the undo restores nothing
and the palette stays at 257 colors. -/
def c1p2 : Drawing := (undoN 1 c1p1).getD c1p1

/-- Hidden-layer demo: a 1×1×2 store whose layer 1 along axis 2 is hidden
and holds the value 5. -/
def c1h0 : Drawing :=
  { mkDrawing (1, 1, 2) with
      cells := mkGrid 0 (1, 1, 2) (fun _ _ z => if z = 1 then 5 else 0),
      hidden := ([], [], [1]) }

/-- The hidden demo after `delete_layers(1, 2, 1)`: the captured slab read
the masked array, so the hidden value 5 was stored as the fill value 0. -/
def c1h1 : Drawing := (applyOps c1h0 [Op.deleteLayers 1 2 1]).getD c1h0

/-- The hidden demo after undoing the delete: the re-inserted slab holds 0
where the hidden cell used to hold 5. -/
def c1h2 : Drawing := (undoN 1 c1h1).getD c1h1

/-- A one-cell slice for the delta-formula witness. -/
def c6slc : Box := ((0, 1), (0, 1), (0, 1))

/-- A one-cell stroke painting color 3, for the delta-formula witness. -/
def c6data : Grid Nat := mkGrid 0 (1, 1, 1) fun _ _ _ => 3

/-- Hidden-cell demo drawing for the delta-formula counterexample: a 1×1×2
store with value 5 in its hidden layer 1 (axis 2). -/
def c6h : Drawing :=
  { mkDrawing (1, 1, 2) with
      cells := mkGrid 0 (1, 1, 2) (fun _ _ z => if z = 1 then 5 else 0),
      hidden := ([], [], [1]) }

/-- The full-store slice for the delta-formula counterexample. -/
def c6hslc : Box := ((0, 1), (0, 1), (0, 2))

/-- A stroke painting color 7 everywhere, for the delta-formula
counterexample. -/
def c6hdata : Grid Nat := mkGrid 0 (1, 1, 2) fun _ _ _ => 7

/-! ## Proof infrastructure for the undo round trip -/

/-- Grid valuation at a point triple. -/
def gval {α : Type} (g : Grid α) (p : Triple) : α := g.val p.1 p.2.1 p.2.2

/-- Point triple lies inside the shape. -/
def inBp (s p : Triple) : Prop := inB s p.1 p.2.1 p.2.2

/-- The index permutation a layer swap applies to read positions. -/
def swapIdx (i1 i2 a : Nat) (p : Triple) : Triple :=
  if getAx p a = i1 then setAx p a i2 else if getAx p a = i2 then setAx p a i1 else p

/-- The index map a single `rot90` step applies to read positions (`sb` is
the extent of axis `b` before the step). -/
def rotIdx (a b sb : Nat) (p : Triple) : Triple :=
  setAx (setAx p a (getAx p b)) b (sb - 1 - getAx p a)

/-- Two drawings agree on everything the undo path reads: cell buffer
(shape and all values), palette, and a cursor bounded by the reference
drawing's (cursor components never grow along perform/undo pairs). -/
def Agrees (t dA : Drawing) : Prop :=
  t.cells.shape = dA.cells.shape ∧ (∀ x y z, t.cells.val x y z = dA.cells.val x y z) ∧
    t.palette = dA.palette ∧ curLE t.cursor dA.cursor

/-- Reverting the edit from any state that agrees with the post-perform
state succeeds and restores the pre-perform cells, palette, and a cursor
bounded by the original, touching neither stacks nor version. -/
def RevertOK (e : Edit) (d0 dA : Drawing) : Prop :=
  ∀ t : Drawing, Agrees t dA →
    ∃ rp : Drawing × Option Box, revertEdit e t = some rp ∧
      Agrees rp.1 d0 ∧ rp.1.undos = t.undos ∧ rp.1.redos = t.redos ∧
      rp.1.version = t.version

/-- What one successful forward operation guarantees, starting from a store
with no hidden layers (an invariant every operation preserves). -/
def OpStep (d0 dA : Drawing) (P : Nat) : Prop :=
  dA.cells.Norm ∧ dA.cells.Range8 ∧ dA.palette.length = P ∧
    dA.hidden = ([], [], []) ∧
    dA.version = d0.version + 1 ∧
    ∃ e, e.version = d0.version ∧ dA.undos = e :: d0.undos ∧
      curLE dA.cursor d0.cursor ∧ RevertOK e d0 dA

/-- The diff as the spec words it: `new_data - (mask(new_data) * old_data)`,
with `mask` 1 at painted (non-zero) stroke cells and 0 elsewhere — the same
formula as `LayerEdit.create` but without the int16 cast, for comparison. -/
def specDelta (d : Drawing) (slc : Box) (data : Grid Nat) : Grid Int :=
  mkGrid 0 data.shape fun i j k =>
    (data.val i j k : Int) -
      (if data.val i j k ≠ 0 then 1 else 0) *
        (d.cells.val (slc.1.1 + i) (slc.2.1.1 + j) (slc.2.2.1 + k) : Int)

/-! # Theorems -/

theorem zerosGrid_norm (s : Triple) : (zerosGrid s).Norm := by
  intro x y z h
  simp only [zerosGrid, mkGrid]
  simp [h]

theorem zerosGrid_range8 (s : Triple) : (zerosGrid s).Range8 := by
  intro x y z
  simp only [zerosGrid, mkGrid]
  split <;> omega

theorem mkGrid_norm (d : Triple) (f : Nat → Nat → Nat → Nat) : (mkGrid 0 d f).Norm := by
  intro x y z h
  simp only [mkGrid] at *
  simp [h]

/-- Helper: grid valuations agree at equal coordinates. -/
theorem val_congr {α : Type} (g : Grid α) {x y z x' y' z' : Nat}
    (hx : x = x') (hy : y = y') (hz : z = z') : g.val x y z = g.val x' y' z' := by
  rw [hx, hy, hz]

theorem gridToList_length {α : Type} (g : Grid α) :
    (gridToList g).length = size3 g.shape := by
  simp [gridToList]

theorem mem_insSorted (x a : Int) (l : List Int) : x ∈ insSorted a l ↔ x = a ∨ x ∈ l := by
  induction l with
  | nil => simp [insSorted]
  | cons y ys ih =>
    simp only [insSorted]
    split
    · simp
    · simp only [List.mem_cons, ih]
      tauto

theorem mem_sortInts (x : Int) (l : List Int) : x ∈ sortInts l ↔ x ∈ l := by
  induction l with
  | nil => simp [sortInts]
  | cons y ys ih =>
    show x ∈ insSorted y (sortInts ys) ↔ _
    rw [mem_insSorted, ih]
    simp

/-- Decoding a C-order flattening restores the array at in-bounds points. -/
theorem listToGrid_gridToList {α : Type} (d : α) (g : Grid α) (x y z : Nat)
    (h : inB g.shape x y z) :
    (listToGrid d g.shape (gridToList g)).val x y z = g.val x y z := by
  rcases g with ⟨⟨s0, s1, s2⟩, v⟩
  obtain ⟨hx, hy, hz⟩ : x < s0 ∧ y < s1 ∧ z < s2 := h
  have hs1 : 0 < s1 := by omega
  have hs2 : 0 < s2 := by omega
  have hyz : y * s2 + z < s1 * s2 := by
    calc y * s2 + z < y * s2 + s2 := by omega
      _ = (y + 1) * s2 := by ring
      _ ≤ s1 * s2 := Nat.mul_le_mul_right _ (by omega)
  have hxy : x * s1 + y < s0 * s1 := by
    calc x * s1 + y < x * s1 + s1 := by omega
      _ = (x + 1) * s1 := by ring
      _ ≤ s0 * s1 := Nat.mul_le_mul_right _ (by omega)
  have hidx : (x * s1 + y) * s2 + z < s0 * s1 * s2 := by
    calc (x * s1 + y) * s2 + z < (x * s1 + y) * s2 + s2 := by omega
      _ = (x * s1 + y + 1) * s2 := by ring
      _ ≤ s0 * s1 * s2 := Nat.mul_le_mul_right _ (by omega)
  simp only [listToGrid, mkGrid, gridToList, size3] at *
  rw [if_pos (show inB (s0, s1, s2) x y z from ⟨hx, hy, hz⟩)]
  rw [List.getD_eq_getElem?_getD, List.getElem?_map, List.getElem?_range hidx]
  simp only [Option.map_some', Option.getD_some]
  have e1 : (x * s1 + y) * s2 + z = s1 * s2 * x + (y * s2 + z) := by ring
  have e2 : (x * s1 + y) * s2 + z = s2 * (x * s1 + y) + z := by ring
  have d1 : ((x * s1 + y) * s2 + z) / (s1 * s2) = x := by
    rw [e1, Nat.mul_add_div (Nat.mul_pos hs1 hs2), Nat.div_eq_of_lt hyz, Nat.add_zero]
  have d2 : ((x * s1 + y) * s2 + z) / s2 % s1 = y := by
    rw [e2, Nat.mul_add_div hs2, Nat.div_eq_of_lt hz, Nat.add_zero]
    have : x * s1 + y = s1 * x + y := by ring
    rw [this, Nat.mul_add_mod, Nat.mod_eq_of_lt hy]
  have d3 : ((x * s1 + y) * s2 + z) % s2 = z := by
    rw [e2, Nat.mul_add_mod, Nat.mod_eq_of_lt hz]
  exact val_congr ⟨(s0, s1, s2), v⟩ d1 d2 d3

/-! # Claim theorems -/

/-- C4 (corrected): `Drawing.move_cursor` clamps every cursor component to
`[0, extent-1]` of its axis, independently, whenever the store has positive
extents.  (`set_cursor` does not clamp; see the counterexample.) -/
theorem move_cursor_clamps (d : Drawing) (dx dy dz : Int)
    (h1 : 0 < d.cells.shape.1) (h2 : 0 < d.cells.shape.2.1) (h3 : 0 < d.cells.shape.2.2) :
    (0 ≤ (d.moveCursor dx dy dz).cursor.1 ∧
      (d.moveCursor dx dy dz).cursor.1 < (d.cells.shape.1 : Int)) ∧
    (0 ≤ (d.moveCursor dx dy dz).cursor.2.1 ∧
      (d.moveCursor dx dy dz).cursor.2.1 < (d.cells.shape.2.1 : Int)) ∧
    (0 ≤ (d.moveCursor dx dy dz).cursor.2.2 ∧
      (d.moveCursor dx dy dz).cursor.2.2 < (d.cells.shape.2.2 : Int)) := by
  simp only [Drawing.moveCursor, moveCursor]
  omega

/-- C4 witness. -/
theorem move_cursor_clamps_witness :
    (0 ≤ ((mkDrawing (2, 2, 2)).moveCursor 5 (-3) 0).cursor.1 ∧
      ((mkDrawing (2, 2, 2)).moveCursor 5 (-3) 0).cursor.1 <
        ((mkDrawing (2, 2, 2)).cells.shape.1 : Int)) ∧
    (0 ≤ ((mkDrawing (2, 2, 2)).moveCursor 5 (-3) 0).cursor.2.1 ∧
      ((mkDrawing (2, 2, 2)).moveCursor 5 (-3) 0).cursor.2.1 <
        ((mkDrawing (2, 2, 2)).cells.shape.2.1 : Int)) ∧
    (0 ≤ ((mkDrawing (2, 2, 2)).moveCursor 5 (-3) 0).cursor.2.2 ∧
      ((mkDrawing (2, 2, 2)).moveCursor 5 (-3) 0).cursor.2.2 <
        ((mkDrawing (2, 2, 2)).cells.shape.2.2 : Int)) :=
  move_cursor_clamps (mkDrawing (2, 2, 2)) 5 (-3) 0 (by decide) (by decide) (by decide)

/-- C4 counterexample: `set_cursor` (through the view, as through the store)
stores the given component unclamped — setting x = 5 on a 2×2×2 store leaves
the cursor at (5,0,0), outside the store bounds. -/
theorem set_cursor_no_clamp_counterexample :
    (sampleView.setCursor (some 5) none none).drawing.cursor = (5, 0, 0) ∧
    ¬ ((sampleView.setCursor (some 5) none none).drawing.cursor.1 <
        (sampleView.drawing.cells.shape.1 : Int)) := by
  constructor
  · rfl
  · decide

/-- C5 (confirmed): hidden-layer renumbering.  `insert_layers` keeps hidden
indices below the insertion point and shifts indices at or above it up by
`n`; `delete_layers` keeps indices below the deletion point, drops indices
inside `[index, index+n)`, and shifts indices at or above `index+n` down by
`n`.  Concretely, with layer 2 of 5 hidden along axis 2, inserting one layer
at index 1 leaves hidden set {3}. -/
theorem hidden_layer_renumbering :
    (∀ (hid : List Int) (index n : Nat) (x : Int),
      x ∈ insertHidden hid index n ↔
        (x ∈ hid ∧ x < (index : Int)) ∨
          ∃ h ∈ hid, (index : Int) ≤ h ∧ x = h + (n : Int)) ∧
    (∀ (hid : List Int) (index n : Nat) (x : Int),
      x ∈ deleteHidden hid index n ↔
        (x ∈ hid ∧ x < (index : Int)) ∨
          ∃ h ∈ hid, (index : Int) + (n : Int) ≤ h ∧ x = h - (n : Int)) ∧
    (applyOp { mkDrawing (1, 1, 5) with hidden := ([], [], [2]) }
        (.insertLayers 1 2 1)).map (fun d => d.hidden) = some ([], [], [3]) := by
  refine ⟨?_, ?_, rfl⟩
  · intro hid index n x
    simp only [insertHidden, List.mem_append, List.mem_filter, List.mem_map, mem_sortInts,
      decide_eq_true_eq, Int.not_lt]
    constructor
    · rintro (⟨hm, hlt⟩ | ⟨a, ⟨ha, hle⟩, rfl⟩)
      · exact Or.inl ⟨hm, hlt⟩
      · exact Or.inr ⟨a, ha, hle, rfl⟩
    · rintro (⟨hm, hlt⟩ | ⟨a, ha, hle, rfl⟩)
      · exact Or.inl ⟨hm, hlt⟩
      · exact Or.inr ⟨a, ⟨ha, hle⟩, rfl⟩
  · intro hid index n x
    simp only [deleteHidden, List.mem_append, List.mem_filter, List.mem_map, mem_sortInts,
      decide_eq_true_eq]
    constructor
    · rintro (⟨hm, hlt⟩ | ⟨a, ⟨ha, hle⟩, rfl⟩)
      · exact Or.inl ⟨hm, hlt⟩
      · exact Or.inr ⟨a, ha, hle, rfl⟩
    · rintro (⟨hm, hlt⟩ | ⟨a, ha, hle, rfl⟩)
      · exact Or.inl ⟨hm, hlt⟩
      · exact Or.inr ⟨a, ⟨ha, hle⟩, rfl⟩

/-- C5 witness. -/
theorem hidden_layer_renumbering_witness :
    (3 : Int) ∈ insertHidden [2] 1 1 ↔
      ((3 : Int) ∈ [(2 : Int)] ∧ (3 : Int) < ((1 : Nat) : Int)) ∨
        ∃ h ∈ [(2 : Int)], ((1 : Nat) : Int) ≤ h ∧ (3 : Int) = h + ((1 : Nat) : Int) :=
  hidden_layer_renumbering.1 [2] 1 1 3

/-- C7 (corrected): for every rotation triple with components in [0,4), the
view direction is one of the six canonical axis directions.  (The claimed
x-then-y-then-z composition order is wrong — the code rotates about y, then
x, then z; see the counterexample.) -/
theorem direction_canonical (rx ry rz : Nat) (hx : rx < 4) (hy : ry < 4) (hz : rz < 4) :
    getDirection (rx, ry, rz) ∈ canonicalDirs := by
  have h : ∀ a, a < 4 → ∀ b, b < 4 → ∀ c, c < 4 →
      List.elem (getDirection (a, b, c)) canonicalDirs = true := by decide
  exact List.mem_of_elem_eq_true (h rx hx ry hy rz hz)

/-- C7 witness. -/
theorem direction_canonical_witness : getDirection (1, 1, 0) ∈ canonicalDirs :=
  direction_canonical 1 1 0 (by decide) (by decide) (by decide)

/-- C7 counterexample: at rotation (1,1,0) the code's direction (rotating
about y, then x, then z) is (-1,0,0), while composing the same elementary
rotations about x, then y, then z — the claimed order — gives (0,1,0). -/
theorem direction_order_counterexample :
    getDirection (1, 1, 0) = (-1, 0, 0) ∧ specDirection (1, 1, 0) = (0, 1, 0) ∧
      getDirection (1, 1, 0) ≠ specDirection (1, 1, 0) := by decide

/-- C8 (confirmed): undo with an empty undo stack and redo with an empty redo
stack are caught `IndexError`s — no-ops that raise nothing and leave the
drawing (cells, palette, version, dirty region, both stacks) untouched. -/
theorem empty_history_noop (d : Drawing) (hu : d.undos = []) (hr : d.redos = []) :
    undo d = some d ∧ redo d = some d := by
  constructor
  · unfold undo
    rw [hu]
  · unfold redo
    rw [hr]

/-- C8 witness. -/
theorem empty_history_noop_witness :
    undo (mkDrawing (1, 1, 1)) = some (mkDrawing (1, 1, 1)) ∧
      redo (mkDrawing (1, 1, 1)) = some (mkDrawing (1, 1, 1)) :=
  empty_history_noop (mkDrawing (1, 1, 1)) rfl rfl

/-- C9 (confirmed): `DrawingView.modify` forwards four positional arguments
`(slc3, data, rotation, tool)` to the three-parameter `Drawing.modify`, so
every call raises `TypeError`: no edit is created and the drawing is
untouched. -/
theorem view_modify_type_error (v : DrawingView) (slc3 : Box) (data : Grid Nat) (t : Tool) :
    v.modifyFwd slc3 data t = none := rfl

/-- C10 (confirmed): `hide_layer`, `show_layer` and `toggle_layer` update only
the hidden-layer sets: the cells, palette, cursor, version, dirty region and
both history stacks are untouched, and no edit record is created — so layer
visibility changes are not undoable. -/
theorem layer_visibility_not_undoable (d : Drawing) (index : Int) (axis : Nat) :
    ((hideLayer d index axis).cells = d.cells ∧ (hideLayer d index axis).palette = d.palette ∧
      (hideLayer d index axis).cursor = d.cursor ∧
      (hideLayer d index axis).version = d.version ∧
      (hideLayer d index axis).undos = d.undos ∧ (hideLayer d index axis).redos = d.redos ∧
      (hideLayer d index axis).dirty = d.dirty) ∧
    ((showLayer d index axis).cells = d.cells ∧ (showLayer d index axis).palette = d.palette ∧
      (showLayer d index axis).cursor = d.cursor ∧
      (showLayer d index axis).version = d.version ∧
      (showLayer d index axis).undos = d.undos ∧ (showLayer d index axis).redos = d.redos ∧
      (showLayer d index axis).dirty = d.dirty) ∧
    ((toggleLayer d index axis).cells = d.cells ∧
      (toggleLayer d index axis).palette = d.palette ∧
      (toggleLayer d index axis).cursor = d.cursor ∧
      (toggleLayer d index axis).version = d.version ∧
      (toggleLayer d index axis).undos = d.undos ∧
      (toggleLayer d index axis).redos = d.redos ∧
      (toggleLayer d index axis).dirty = d.dirty) := by
  refine ⟨⟨rfl, rfl, rfl, rfl, rfl, rfl, rfl⟩, ⟨rfl, rfl, rfl, rfl, rfl, rfl, rfl⟩, ?_⟩
  unfold toggleLayer
  split <;> exact ⟨rfl, rfl, rfl, rfl, rfl, rfl, rfl⟩

/-- C3 (corrected): every successfully applied forward edit (`modify`,
`rotate`, `flip`, `change_colors`, `move_layer`, `insert_layers`,
`delete_layers`) and every `redo` increments the version by exactly one, and
every successful `undo` of an edit decrements it by exactly one — so the
version is not monotone (see the counterexample). -/
theorem version_step_per_edit :
    (∀ (d : Drawing) (o : Op) (d' : Drawing), applyOp d o = some d' →
      d'.version = d.version + 1) ∧
    (∀ d d' : Drawing, d.redos ≠ [] → redo d = some d' → d'.version = d.version + 1) ∧
    (∀ d d' : Drawing, d.undos ≠ [] → undo d = some d' → d'.version + 1 = d.version) := by
  refine ⟨?_, ?_, ?_⟩
  · intro d o d' h
    unfold applyOp at h
    cases hc : createEdit d o with
    | none => rw [hc] at h; exact absurd h (by simp)
    | some e =>
      rw [hc] at h
      simp only [Option.some_bind] at h
      unfold performEditTop at h
      split at h
      · obtain ⟨r, hr, rfl⟩ := Option.map_eq_some'.mp h
        rfl
      · exact absurd h (by simp)
  · rintro ⟨cells, pal, hid, cur, ver, undos, redos, dirty⟩ d' hne h
    rcases redos with _ | ⟨e, rest⟩
    · exact absurd rfl hne
    · unfold redo at h
      dsimp only at h
      split at h
      · obtain ⟨r, hr, rfl⟩ := Option.map_eq_some'.mp h
        rfl
      · exact absurd h (by simp)
  · rintro ⟨cells, pal, hid, cur, ver, undos, redos, dirty⟩ d' hne h
    rcases undos with _ | ⟨e, rest⟩
    · exact absurd rfl hne
    · unfold undo at h
      dsimp only at h
      split at h
      · rename_i hver
        obtain ⟨r, hr, rfl⟩ := Option.map_eq_some'.mp h
        show e.version + 1 = ver
        exact hver.symm
      · exact absurd h (by simp)

/-- C3 witness. -/
theorem version_step_per_edit_witness :
    c3d1.version = (mkDrawing (1, 1, 1)).version + 1 :=
  version_step_per_edit.1 (mkDrawing (1, 1, 1)) (.flip 0) c3d1 rfl

/-- C3 counterexample: after one flip edit on a fresh drawing the version is
1; undoing it brings the version back down to 0, so the version decreases
and `undo` does not change it by +1. -/
theorem version_monotone_counterexample :
    applyOp (mkDrawing (1, 1, 1)) (.flip 0) = some c3d1 ∧ undo c3d1 = some c3d2 ∧
      c3d1.version = 1 ∧ c3d2.version = 0 := ⟨rfl, rfl, rfl, rfl⟩

/-- **C2** (amended): the affected regions reported by `perform` are sound
but not minimal.  A cell-diff edit reports exactly its slice and leaves
every in-bounds cell outside that slice unchanged; a layer-swap edit
reports the full drawing, and layer insert/delete report the full (resized)
drawing — boxes that contain every in-bounds cell, even when no cell
changed (see the counterexample); palette, rotate and flip edits return no
box at all. -/
theorem edit_region_soundness :
    (∀ (d : Drawing) (slc : Box) (diff : List Int) (c v : Nat) (r : Drawing × Option Box),
      performEdit (.layer slc diff c v) d = some r →
      r.2 = some slc ∧ ∀ x y z, inB d.cells.shape x y z → ¬ inBox slc x y z →
        r.1.cells.val x y z = d.cells.val x y z) ∧
    (∀ (d : Drawing) (i1 i2 axis v : Nat) (r : Drawing × Option Box),
      performEdit (.layerSwap i1 i2 axis v) d = some r →
      r.2 = some (fullSlice d.cells.shape) ∧
      ∀ x y z, inB d.cells.shape x y z → inBox (fullSlice d.cells.shape) x y z) ∧
    (∀ (d : Drawing) (index axis n : Nat) (bytes : List Nat) (v : Nat)
        (r : Drawing × Option Box),
      performEdit (.layersInsert index axis n bytes v) d = some r →
      r.2 = some (fullSlice r.1.cells.shape) ∧
      ∀ x y z, inB r.1.cells.shape x y z → inBox (fullSlice r.1.cells.shape) x y z) ∧
    (∀ (d : Drawing) (index axis n : Nat) (bytes : List Nat) (v : Nat)
        (r : Drawing × Option Box),
      performEdit (.layersDelete index axis n bytes v) d = some r →
      r.2 = some (fullSlice r.1.cells.shape) ∧
      ∀ x y z, inB r.1.cells.shape x y z → inBox (fullSlice r.1.cells.shape) x y z) ∧
    (∀ (d : Drawing) (s : Nat) (o cs : List Color) (v : Nat) (r : Drawing × Option Box),
      performEdit (.palette s o cs v) d = some r → r.2 = none) ∧
    (∀ (d : Drawing) (amount : Int) (axis v : Nat) (r : Drawing × Option Box),
      performEdit (.drawingRotate amount axis v) d = some r → r.2 = none) ∧
    (∀ (d : Drawing) (axis v : Nat) (r : Drawing × Option Box),
      performEdit (.drawingFlip axis v) d = some r → r.2 = none) := by
  refine ⟨?_, ?_, ?_, ?_, ?_, ?_, ?_⟩
  · intro d slc diff c v r h
    simp only [performEdit] at h
    split at h
    · obtain rfl : (_, some slc) = r := Option.some_inj.mp h
      refine ⟨rfl, ?_⟩
      intro x y z hin hout
      simp only [addDiff, mkGrid]
      rw [if_pos hin, if_neg hout]
    · exact absurd h (by simp)
  · intro d i1 i2 axis v r h
    simp only [performEdit] at h
    split at h
    · obtain rfl : (_, some (fullSlice d.cells.shape)) = r := Option.some_inj.mp h
      refine ⟨rfl, ?_⟩
      intro x y z hin
      obtain ⟨ha, hb, hc⟩ := hin
      exact ⟨Nat.zero_le x, ha, Nat.zero_le y, hb, Nat.zero_le z, hc⟩
    · exact absurd h (by simp)
  · intro d index axis n bytes v r h
    simp only [performEdit] at h
    split at h
    · obtain ⟨d', hd', rfl⟩ := Option.map_eq_some'.mp h
      refine ⟨rfl, ?_⟩
      intro x y z hin
      obtain ⟨ha, hb, hc⟩ := hin
      exact ⟨Nat.zero_le x, ha, Nat.zero_le y, hb, Nat.zero_le z, hc⟩
    · exact absurd h (by simp)
  · intro d index axis n bytes v r h
    simp only [performEdit] at h
    split at h
    · obtain ⟨d', hd', rfl⟩ := Option.map_eq_some'.mp h
      refine ⟨rfl, ?_⟩
      intro x y z hin
      obtain ⟨ha, hb, hc⟩ := hin
      exact ⟨Nat.zero_le x, ha, Nat.zero_le y, hb, Nat.zero_le z, hc⟩
    · exact absurd h (by simp)
  · intro d s o cs v r h
    simp only [performEdit] at h
    obtain rfl := Option.some_inj.mp h
    rfl
  · intro d amount axis v r h
    simp only [performEdit] at h
    split at h
    · obtain rfl := Option.some_inj.mp h
      rfl
    · exact absurd h (by simp)
  · intro d axis v r h
    simp only [performEdit] at h
    split at h
    · obtain rfl := Option.some_inj.mp h
      rfl
    · exact absurd h (by simp)

/-- C2 witness. -/
theorem edit_region_soundness_witness :
    layerDemoRes.2 = some ((0, 1), (0, 1), (0, 1)) ∧
    ∀ x y z, inB (mkDrawing (1, 1, 1)).cells.shape x y z →
      ¬ inBox ((0, 1), (0, 1), (0, 1)) x y z →
      layerDemoRes.1.cells.val x y z = (mkDrawing (1, 1, 1)).cells.val x y z :=
  edit_region_soundness.1 (mkDrawing (1, 1, 1)) ((0, 1), (0, 1), (0, 1)) [5] 0 0
    layerDemoRes rfl

/-- C2 counterexample: swapping layers 0 and 1 of an all-zero 1×1×2 drawing
changes no cell at all, yet `LayerSwapEdit.perform` reports the whole
drawing as the affected region — a nonempty box, strictly larger than the
(empty) bounding box of the actually-changed cells. -/
theorem dirty_region_minimality_counterexample :
    performEdit (.layerSwap 0 1 2 0) swapDemo = some swapDemoRes ∧
    swapDemoRes.2 = some (fullSlice (1, 1, 2)) ∧
    (∀ x < 1, ∀ y < 1, ∀ z < 2, swapDemoRes.1.cells.val x y z = swapDemo.cells.val x y z) ∧
    inBox (fullSlice (1, 1, 2)) 0 0 0 := by
  refine ⟨rfl, rfl, by decide, by decide⟩

/-! ## Hidden-layer mask facts for stores without hidden layers -/

theorem isHidden_nil (x y z : Nat) : ¬ isHidden ([], [], []) x y z := by
  unfold isHidden
  simp

theorem getHid_nil (a : Nat) : getHid ([], [], []) a = [] := by
  unfold getHid
  by_cases h0 : a = 0 <;> by_cases h1 : a = 1 <;> simp [h0, h1]

theorem updateHidden_nil (a : Nat) : updateHidden ([], [], []) a [] = ([], [], []) := by
  unfold updateHidden setHid sortInts
  by_cases h0 : a = 0 <;> by_cases h1 : a = 1 <;> simp [h0, h1]

theorem maskedTakeLayer_nil (d : Drawing) (index axis : Nat)
    (hH : d.hidden = ([], [], [])) :
    maskedTakeLayer d index axis = takeLayer d.cells index axis := by
  unfold maskedTakeLayer takeLayer mkGrid
  rw [hH]
  congr 1

theorem reallySwapLayers_hidden_nil (d : Drawing) (i1 i2 a : Nat)
    (hH : d.hidden = ([], [], [])) : (reallySwapLayers d i1 i2 a).hidden = ([], [], []) := by
  unfold reallySwapLayers
  dsimp only
  rw [hH, getHid_nil]
  simp only [List.not_mem_nil, false_and, and_false, if_false]
  exact updateHidden_nil a

theorem reallyFlip_hidden_nil (d : Drawing) (a : Nat) (hH : d.hidden = ([], [], [])) :
    (reallyFlip d a).hidden = ([], [], []) := by
  unfold reallyFlip
  dsimp only
  rw [hH, getHid_nil]
  exact updateHidden_nil a

theorem rotHidPos_nil_fst (k : Nat) : ∀ sa sb : Nat,
    (rotHidPos k (sa, ([] : List Int)) (sb, [])).1.2 = [] := by
  induction k with
  | zero => intro sa sb; rfl
  | succ m ih => intro sa sb; exact ih sb sa

theorem rotHidPos_nil_snd (k : Nat) : ∀ sa sb : Nat,
    (rotHidPos k (sa, ([] : List Int)) (sb, [])).2.2 = [] := by
  induction k with
  | zero => intro sa sb; rfl
  | succ m ih => intro sa sb; exact ih sb sa

theorem rotHidNeg_nil_fst (k : Nat) : ∀ sa sb : Nat,
    (rotHidNeg k (sa, ([] : List Int)) (sb, [])).1.2 = [] := by
  induction k with
  | zero => intro sa sb; rfl
  | succ m ih => intro sa sb; exact ih sb sa

theorem rotHidNeg_nil_snd (k : Nat) : ∀ sa sb : Nat,
    (rotHidNeg k (sa, ([] : List Int)) (sb, [])).2.2 = [] := by
  induction k with
  | zero => intro sa sb; rfl
  | succ m ih => intro sa sb; exact ih sb sa

theorem reallyRotate_hidden_nil (d : Drawing) (amount : Int) (a : Nat)
    (hH : d.hidden = ([], [], [])) : (reallyRotate d amount a).hidden = ([], [], []) := by
  unfold reallyRotate
  dsimp only
  rw [hH, getHid_nil, getHid_nil]
  split
  · rw [rotHidPos_nil_fst, rotHidPos_nil_snd, updateHidden_nil, updateHidden_nil]
  · rw [rotHidNeg_nil_fst, rotHidNeg_nil_snd, updateHidden_nil, updateHidden_nil]

theorem i16_eq_self (x : Int) (h1 : -32768 ≤ x) (h2 : x < 32768) : i16 x = x := by
  unfold i16
  omega

theorem boxShape_of_wf {s : Triple} {b : Box} (h : slcWF s b) :
    boxShape b = (b.1.2 - b.1.1, b.2.1.2 - b.2.1.1, b.2.2.2 - b.2.2.1) := by
  obtain ⟨h1, h2, h3, h4, h5, h6⟩ := h
  simp only [boxShape, Prod.mk.injEq]
  exact ⟨by omega, by omega, by omega⟩

/-- On a store with no hidden layers the mask never fires and the int16 cast
in `LayerEdit.create` never wraps for uint8 operands, so the created diff
grid is exactly the spec's `new - mask(new) * old`. -/
theorem createDiff_eq_specDelta (d : Drawing) (slc : Box) (data : Grid Nat)
    (hH : d.hidden = ([], [], [])) (hR : d.cells.Range8) (hD : data.Range8) :
    (mkGrid (0 : Int) data.shape fun i j k =>
      if isHidden d.hidden (slc.1.1 + i) (slc.2.1.1 + j) (slc.2.2.1 + k) then 0
      else
        i16 ((data.val i j k : Int) -
          (if data.val i j k ≠ 0 then 1 else 0) *
            (d.cells.val (slc.1.1 + i) (slc.2.1.1 + j) (slc.2.2.1 + k) : Int))) =
      specDelta d slc data := by
  unfold specDelta mkGrid
  congr 1
  funext i j k
  dsimp only
  by_cases hin : inB data.shape i j k
  · rw [if_pos hin, if_pos hin,
      if_neg (show ¬ isHidden d.hidden (slc.1.1 + i) (slc.2.1.1 + j) (slc.2.2.1 + k) by
        rw [hH]; exact isHidden_nil _ _ _)]
    have hd1 := hD i j k
    have hr1 := hR (slc.1.1 + i) (slc.2.1.1 + j) (slc.2.2.1 + k)
    by_cases h0 : data.val i j k ≠ 0
    · rw [if_pos h0]
      exact i16_eq_self _ (by omega) (by omega)
    · rw [if_neg h0]
      exact i16_eq_self _ (by omega) (by omega)
  · simp [hin]

/-- **C6** (amended): on a store with no hidden layers, the stored delta of
a cell-diff edit equals `new_data - mask(new_data) * old_data`
(`specDelta`); performing the edit adds that delta mod 256 inside the slice
and reverting subtracts it, so cells whose stroke value is zero are left
unchanged by perform, and only explicitly painted cells contribute a
non-zero delta.  With hidden layers the stored delta differs: the diff is
computed from the masked `drawing.data[slc]` and its `tobytes()` writes the
fill value 0 at every hidden cell of the slice (see the counterexample). -/
theorem layer_edit_delta (d : Drawing) (slc : Box) (data : Grid Nat) (t : Tool)
    (hH : d.hidden = ([], [], []))
    (hwf : slcWF d.cells.shape slc) (hds : data.shape = boxShape slc)
    (hR : d.cells.Range8) (hD : data.Range8) :
    layerEditCreate d slc data t =
      some (.layer slc (gridToList (specDelta d slc data)) t.color d.version) ∧
    (∀ e, layerEditCreate d slc data t = some e →
      ∃ r, performEdit e d = some r ∧ r.2 = some slc ∧
        (∀ x y z, inB d.cells.shape x y z → inBox slc x y z →
          (r.1.cells.val x y z : Int) =
            ((d.cells.val x y z : Int) +
              (specDelta d slc data).val (x - slc.1.1) (y - slc.2.1.1) (z - slc.2.2.1)) % 256) ∧
        (∀ x y z, inB d.cells.shape x y z → inBox slc x y z →
          data.val (x - slc.1.1) (y - slc.2.1.1) (z - slc.2.2.1) = 0 →
          r.1.cells.val x y z = d.cells.val x y z) ∧
        (∀ t2 : Drawing, t2.cells.shape = d.cells.shape →
          ∃ r2, revertEdit e t2 = some r2 ∧
            ∀ x y z, inB t2.cells.shape x y z → inBox slc x y z →
              (r2.1.cells.val x y z : Int) =
                ((t2.cells.val x y z : Int) -
                  (specDelta d slc data).val (x - slc.1.1) (y - slc.2.1.1)
                    (z - slc.2.2.1)) % 256)) ∧
    (∀ i j k, (specDelta d slc data).val i j k ≠ 0 → data.val i j k ≠ 0) := by
  have hcreate : layerEditCreate d slc data t =
      some (.layer slc (gridToList (specDelta d slc data)) t.color d.version) := by
    unfold layerEditCreate
    rw [if_pos ⟨hwf, hds⟩, createDiff_eq_specDelta d slc data hH hR hD]
  have hlen : (gridToList (specDelta d slc data)).length = size3 (boxShape slc) := by
    rw [gridToList_length]
    show size3 data.shape = size3 (boxShape slc)
    rw [hds]
  have hrelB : ∀ x y z, inBox slc x y z →
      inB data.shape (x - slc.1.1) (y - slc.2.1.1) (z - slc.2.2.1) := by
    intro x y z hb
    obtain ⟨b1, b2, b3, b4, b5, b6⟩ := hb
    obtain ⟨w1, w2, w3, w4, w5, w6⟩ := hwf
    rw [hds, boxShape_of_wf ⟨w1, w2, w3, w4, w5, w6⟩]
    simp only [inB]
    exact ⟨by omega, by omega, by omega⟩
  have hdec : ∀ x y z, inBox slc x y z →
      (listToGrid 0 (boxShape slc) (gridToList (specDelta d slc data))).val
          (x - slc.1.1) (y - slc.2.1.1) (z - slc.2.2.1) =
        (specDelta d slc data).val (x - slc.1.1) (y - slc.2.1.1) (z - slc.2.2.1) := by
    intro x y z hb
    rw [← hds]
    exact listToGrid_gridToList 0 (specDelta d slc data) _ _ _ (hrelB x y z hb)
  refine ⟨hcreate, ?_, ?_⟩
  · intro e he
    rw [hcreate] at he
    obtain rfl := Option.some_inj.mp he.symm
    refine ⟨({ d with cells := (addDiff d.cells slc (listToGrid 0 (boxShape slc) (gridToList (specDelta d slc data)))) }, some slc), ?_, rfl, ?_, ?_, ?_⟩
    · simp only [performEdit]
      rw [if_pos ⟨hlen, hwf⟩]
    · intro x y z hin hb
      show ((addDiff d.cells slc (listToGrid 0 (boxShape slc)
        (gridToList (specDelta d slc data)))).val x y z : Int) = _
      simp only [addDiff, mkGrid]
      rw [if_pos hin, if_pos hb, hdec x y z hb]
      exact Int.toNat_of_nonneg (Int.emod_nonneg _ (by norm_num))
    · intro x y z hin hb h0
      have hzero : (specDelta d slc data).val (x - slc.1.1) (y - slc.2.1.1)
          (z - slc.2.2.1) = 0 := by
        simp only [specDelta, mkGrid]
        rw [if_pos (hrelB x y z hb), h0]
        simp
      show (addDiff d.cells slc (listToGrid 0 (boxShape slc)
        (gridToList (specDelta d slc data)))).val x y z = _
      simp only [addDiff, mkGrid]
      rw [if_pos hin, if_pos hb, hdec x y z hb, hzero]
      have := hR x y z
      omega
    · intro t2 ht2
      refine ⟨({ t2 with cells := (subDiff t2.cells slc (listToGrid 0 (boxShape slc) (gridToList (specDelta d slc data)))) }, some slc), ?_, ?_⟩
      · simp only [revertEdit]
        rw [if_pos ⟨hlen, by rw [ht2]; exact hwf⟩]
      · intro x y z hin hb
        show ((subDiff t2.cells slc (listToGrid 0 (boxShape slc)
          (gridToList (specDelta d slc data)))).val x y z : Int) = _
        simp only [subDiff, mkGrid]
        rw [if_pos hin, if_pos hb, hdec x y z hb]
        exact Int.toNat_of_nonneg (Int.emod_nonneg _ (by norm_num))
  · intro i j k hne
    by_contra h0
    apply hne
    simp only [specDelta, mkGrid]
    rw [h0]
    simp

/-! ## Helper lemmas: axis components -/

theorem getAx_setAx_same (p : Triple) (a v : Nat) : getAx (setAx p a v) a = v := by
  unfold getAx setAx
  by_cases h0 : a = 0 <;> by_cases h1 : a = 1 <;> simp [h0, h1]

theorem setAx_setAx (p : Triple) (a v w : Nat) : setAx (setAx p a v) a w = setAx p a w := by
  unfold setAx
  by_cases h0 : a = 0 <;> by_cases h1 : a = 1 <;> simp [h0, h1]

theorem setAx_getAx (p : Triple) (a : Nat) : setAx p a (getAx p a) = p := by
  rcases p with ⟨x, y, z⟩
  unfold getAx setAx
  by_cases h0 : a = 0 <;> by_cases h1 : a = 1 <;> simp [h0, h1]

theorem inBp_setAx {s p : Triple} {a v : Nat} (hv : v < getAx s a) (h : inBp s p) :
    inBp s (setAx p a v) := by
  rcases s with ⟨s0, s1, s2⟩
  rcases p with ⟨x, y, z⟩
  unfold inBp inB getAx setAx at *
  by_cases h0 : a = 0 <;> by_cases h1 : a = 1 <;>
    simp [h0, h1] at hv h ⊢ <;> omega

/-! ## Helper lemmas: layer swap is an involution on the cells -/

theorem swapCells_shape (i1 i2 a : Nat) (g : Grid Nat) :
    (swapCells i1 i2 a g).shape = g.shape := rfl

theorem swapCells_val (i1 i2 a : Nat) (g : Grid Nat) (p : Triple) (hin : inBp g.shape p) :
    gval (swapCells i1 i2 a g) p = gval g (swapIdx i1 i2 a p) := by
  rcases p with ⟨x, y, z⟩
  show (swapCells i1 i2 a g).val x y z = _
  unfold swapCells mkGrid swapIdx gval
  dsimp only
  rw [if_pos (show inB g.shape x y z from hin)]
  split_ifs <;> rfl

theorem swapIdx_invol (i1 i2 a : Nat) (p : Triple) :
    swapIdx i1 i2 a (swapIdx i1 i2 a p) = p := by
  rcases p with ⟨x, y, z⟩
  by_cases h0 : a = 0 <;> by_cases h1 : a = 1 <;>
    simp only [swapIdx, getAx, setAx, h0, h1] <;>
    split_ifs <;> simp_all

theorem inBp_swapIdx {s p : Triple} {i1 i2 a : Nat} (h1 : i1 < getAx s a)
    (h2 : i2 < getAx s a) (h : inBp s p) : inBp s (swapIdx i1 i2 a p) := by
  unfold swapIdx
  split_ifs
  · exact inBp_setAx h2 h
  · exact inBp_setAx h1 h
  · exact h

theorem swapCells_norm (i1 i2 a : Nat) (g : Grid Nat) : (swapCells i1 i2 a g).Norm := by
  intro x y z h
  unfold swapCells mkGrid
  dsimp only
  rw [if_neg (show ¬ inB g.shape x y z from h)]

theorem swapCells_range8 (i1 i2 a : Nat) (g : Grid Nat) (hR : g.Range8) :
    (swapCells i1 i2 a g).Range8 := by
  intro x y z
  unfold swapCells mkGrid
  dsimp only
  split
  · split
    · exact hR _ _ _
    · split
      · exact hR _ _ _
      · exact hR _ _ _
  · omega

theorem swapCells_invol (i1 i2 a : Nat) (g : Grid Nat) (hN : g.Norm)
    (h1 : i1 < getAx g.shape a) (h2 : i2 < getAx g.shape a) :
    ∀ x y z, (swapCells i1 i2 a (swapCells i1 i2 a g)).val x y z = g.val x y z := by
  intro x y z
  by_cases hin : inB g.shape x y z
  · have hin' : inBp g.shape (x, y, z) := hin
    have step1 : (swapCells i1 i2 a (swapCells i1 i2 a g)).val x y z =
        gval (swapCells i1 i2 a g) (swapIdx i1 i2 a (x, y, z)) :=
      swapCells_val i1 i2 a (swapCells i1 i2 a g) (x, y, z) hin'
    rw [step1, swapCells_val i1 i2 a g _ (inBp_swapIdx h1 h2 hin'), swapIdx_invol]
    rfl
  · have : (swapCells i1 i2 a (swapCells i1 i2 a g)).val x y z = 0 :=
      swapCells_norm _ _ _ _ x y z hin
    rw [this, hN x y z hin]

/-! ## Helper lemmas: flip is an involution on the cells -/

theorem flipCells_shape (a : Nat) (g : Grid Nat) : (flipCells a g).shape = g.shape := rfl

theorem flipCells_val (a : Nat) (g : Grid Nat) (p : Triple) (hin : inBp g.shape p) :
    gval (flipCells a g) p = gval g (setAx p a (getAx g.shape a - 1 - getAx p a)) := by
  rcases p with ⟨x, y, z⟩
  show (flipCells a g).val x y z = _
  unfold flipCells mkGrid gval
  dsimp only
  rw [if_pos (show inB g.shape x y z from hin)]

theorem flipCells_norm (a : Nat) (g : Grid Nat) : (flipCells a g).Norm := by
  intro x y z h
  unfold flipCells mkGrid
  dsimp only
  rw [if_neg (show ¬ inB g.shape x y z from h)]

theorem flipCells_range8 (a : Nat) (g : Grid Nat) (hR : g.Range8) :
    (flipCells a g).Range8 := by
  intro x y z
  unfold flipCells mkGrid
  dsimp only
  split
  · exact hR _ _ _
  · omega

theorem inBp_mk {s : Triple} {x y z : Nat} (h : inB s x y z) : inBp s (x, y, z) := h

theorem flipCells_invol (a : Nat) (g : Grid Nat) (hN : g.Norm) :
    ∀ x y z, (flipCells a (flipCells a g)).val x y z = g.val x y z := by
  intro x y z
  by_cases hin : inB g.shape x y z
  · have hin' : inBp g.shape (x, y, z) := hin
    have hlt : getAx g.shape a - 1 - getAx (x, y, z) a < getAx g.shape a := by
      have hp : getAx (x, y, z) a < getAx g.shape a := by
        rcases hin with ⟨ha, hb, hc⟩
        unfold getAx
        by_cases h0 : a = 0 <;> by_cases h1 : a = 1 <;> simp [h0, h1] <;> omega
      omega
    rw [show (flipCells a (flipCells a g)).val x y z =
        gval (flipCells a (flipCells a g)) (x, y, z) from rfl,
      flipCells_val a (flipCells a g) (x, y, z) hin']
    simp only [flipCells_shape]
    rw [flipCells_val a g _ (inBp_setAx hlt hin'), setAx_setAx, getAx_setAx_same]
    have hp : getAx (x, y, z) a < getAx g.shape a := by
      rcases hin with ⟨ha, hb, hc⟩
      unfold getAx
      by_cases h0 : a = 0 <;> by_cases h1 : a = 1 <;> simp [h0, h1] <;> omega
    rw [show getAx g.shape a - 1 - (getAx g.shape a - 1 - getAx (x, y, z) a) =
        getAx (x, y, z) a by omega, setAx_getAx]
    rfl
  · have : (flipCells a (flipCells a g)).val x y z = 0 := flipCells_norm _ _ x y z hin
    rw [this, hN x y z hin]

/-! ## Helper lemmas: quarter-turn rotation -/

theorem rot90Step_val (a b : Nat) (g : Grid Nat) (p : Triple) :
    gval (rot90Step a b g) p =
      if inB (rot90Step a b g).shape p.1 p.2.1 p.2.2 then
        gval g (rotIdx a b (getAx g.shape b) p) else 0 := by
  rcases p with ⟨x, y, z⟩
  rfl

theorem rot90Step_norm (a b : Nat) (g : Grid Nat) : (rot90Step a b g).Norm := by
  intro x y z h
  unfold rot90Step mkGrid at *
  dsimp only at *
  rw [if_neg h]

theorem rot90Step_range8 (a b : Nat) (g : Grid Nat) (hR : g.Range8) :
    (rot90Step a b g).Range8 := by
  intro x y z
  unfold rot90Step mkGrid
  dsimp only
  split
  · exact hR _ _ _
  · omega

theorem rot90Step_congr (a b : Nat) (g g' : Grid Nat) (hs : g.shape = g'.shape)
    (hv : ∀ x y z, g.val x y z = g'.val x y z) :
    (rot90Step a b g).shape = (rot90Step a b g').shape ∧
      ∀ x y z, (rot90Step a b g).val x y z = (rot90Step a b g').val x y z := by
  constructor
  · show setAx (setAx g.shape a (getAx g.shape b)) b (getAx g.shape a) = _
    rw [hs]
    rfl
  · intro x y z
    unfold rot90Step mkGrid
    dsimp only
    rw [hs]
    split
    · apply hv
    · rfl

theorem iterate_rot_congr (a b n : Nat) : ∀ (g g' : Grid Nat), g.shape = g'.shape →
    (∀ x y z, g.val x y z = g'.val x y z) →
    ((rot90Step a b)^[n] g).shape = ((rot90Step a b)^[n] g').shape ∧
      ∀ x y z, ((rot90Step a b)^[n] g).val x y z = ((rot90Step a b)^[n] g').val x y z := by
  induction n with
  | zero => intro g g' hs hv; exact ⟨hs, hv⟩
  | succ k ih =>
    intro g g' hs hv
    rw [Function.iterate_succ_apply, Function.iterate_succ_apply]
    obtain ⟨hs', hv'⟩ := rot90Step_congr a b g g' hs hv
    exact ih _ _ hs' hv'

theorem iterate_rot_norm (a b n : Nat) (g : Grid Nat) (hN : g.Norm) :
    ((rot90Step a b)^[n] g).Norm := by
  cases n with
  | zero => exact hN
  | succ k =>
    rw [Function.iterate_succ_apply']
    exact rot90Step_norm a b _

theorem iterate_rot_range8 (a b n : Nat) (g : Grid Nat) (hR : g.Range8) :
    ((rot90Step a b)^[n] g).Range8 := by
  induction n with
  | zero => exact hR
  | succ k ih =>
    rw [Function.iterate_succ_apply']
    exact rot90Step_range8 a b _ ih

theorem rotFour (a b : Nat)
    (hab : (a, b) = (1, 2) ∨ (a, b) = (0, 2) ∨ (a, b) = (0, 1)) (g : Grid Nat) (hN : g.Norm) :
    ((rot90Step a b)^[4] g).shape = g.shape ∧
      ∀ x y z, ((rot90Step a b)^[4] g).val x y z = g.val x y z := by
  rcases hab with h | h | h <;> (simp only [Prod.mk.injEq] at h; obtain ⟨rfl, rfl⟩ := h)
  · refine ⟨rfl, ?_⟩
    intro x y z
    by_cases hin : inB g.shape x y z
    · obtain ⟨hx, hy, hz⟩ := hin
      rw [show ((rot90Step 1 2)^[4] g).val x y z =
        gval (rot90Step 1 2 (rot90Step 1 2 (rot90Step 1 2 (rot90Step 1 2 g)))) (x, y, z)
        from rfl]
      simp only [rot90Step_val]
      simp [rot90Step, mkGrid, rotIdx, setAx, getAx, gval, inB]
      split_ifs <;>
        first
          | exact val_congr g (by omega) (by omega) (by omega)
          | exact (by omega : False).elim
    · have h0 : ((rot90Step 1 2)^[4] g).val x y z = 0 :=
        iterate_rot_norm 1 2 4 g hN x y z hin
      rw [h0, hN x y z hin]
  · refine ⟨rfl, ?_⟩
    intro x y z
    by_cases hin : inB g.shape x y z
    · obtain ⟨hx, hy, hz⟩ := hin
      rw [show ((rot90Step 0 2)^[4] g).val x y z =
        gval (rot90Step 0 2 (rot90Step 0 2 (rot90Step 0 2 (rot90Step 0 2 g)))) (x, y, z)
        from rfl]
      simp only [rot90Step_val]
      simp [rot90Step, mkGrid, rotIdx, setAx, getAx, gval, inB]
      split_ifs <;>
        first
          | exact val_congr g (by omega) (by omega) (by omega)
          | exact (by omega : False).elim
    · have h0 : ((rot90Step 0 2)^[4] g).val x y z = 0 :=
        iterate_rot_norm 0 2 4 g hN x y z hin
      rw [h0, hN x y z hin]
  · refine ⟨rfl, ?_⟩
    intro x y z
    by_cases hin : inB g.shape x y z
    · obtain ⟨hx, hy, hz⟩ := hin
      rw [show ((rot90Step 0 1)^[4] g).val x y z =
        gval (rot90Step 0 1 (rot90Step 0 1 (rot90Step 0 1 (rot90Step 0 1 g)))) (x, y, z)
        from rfl]
      simp only [rot90Step_val]
      simp [rot90Step, mkGrid, rotIdx, setAx, getAx, gval, inB]
      split_ifs <;>
        first
          | exact val_congr g (by omega) (by omega) (by omega)
          | exact (by omega : False).elim
    · have h0 : ((rot90Step 0 1)^[4] g).val x y z = 0 :=
        iterate_rot_norm 0 1 4 g hN x y z hin
      rw [h0, hN x y z hin]

/-! ## Helper lemmas: bounds transport -/

theorem getAx_lt_of_inBp {s p : Triple} (a : Nat) (h : inBp s p) :
    getAx p a < getAx s a := by
  rcases s with ⟨s0, s1, s2⟩
  rcases p with ⟨x, y, z⟩
  unfold inBp inB at h
  obtain ⟨h1, h2, h3⟩ := h
  simp only at h1 h2 h3
  unfold getAx
  by_cases h0 : a = 0 <;> by_cases ha1 : a = 1 <;> simp [h0, ha1] <;> omega

theorem inBp_shape_setAx {s p : Triple} {a v : Nat} (hpa : getAx p a < v) (h : inBp s p) :
    inBp (setAx s a v) p := by
  rcases s with ⟨s0, s1, s2⟩
  rcases p with ⟨x, y, z⟩
  unfold inBp inB getAx setAx at *
  by_cases h0 : a = 0 <;> by_cases h1 : a = 1 <;>
    simp [h0, h1] at hpa h ⊢ <;> omega

theorem inBp_setAx_both {s p : Triple} {a v w : Nat} (hvw : w < v) (h : inBp s p) :
    inBp (setAx s a v) (setAx p a w) := by
  rcases s with ⟨s0, s1, s2⟩
  rcases p with ⟨x, y, z⟩
  unfold inBp inB setAx at *
  by_cases h0 : a = 0 <;> by_cases h1 : a = 1 <;>
    simp [h0, h1] at h ⊢ <;> omega

/-! ## Helper lemmas: layer insert / delete / take -/

theorem insertCells_val (g D : Grid Nat) (index a n : Nat) (p : Triple) :
    gval (insertCells g D index a n) p =
      if inB (insertCells g D index a n).shape p.1 p.2.1 p.2.2 then
        (if getAx p a < index then gval g p
         else if getAx p a < index + n then gval D (setAx p a (getAx p a - index))
         else gval g (setAx p a (getAx p a - n)))
      else 0 := by
  rcases p with ⟨x, y, z⟩
  rfl

theorem deleteOneCells_val (g : Grid Nat) (index a : Nat) (p : Triple) :
    gval (deleteOneCells g index a) p =
      if inB (deleteOneCells g index a).shape p.1 p.2.1 p.2.2 then
        (if getAx p a < index then gval g p else gval g (setAx p a (getAx p a + 1)))
      else 0 := by
  rcases p with ⟨x, y, z⟩
  rfl

theorem takeLayer_val (g : Grid Nat) (index a : Nat) (p : Triple) :
    gval (takeLayer g index a) p =
      if inB (takeLayer g index a).shape p.1 p.2.1 p.2.2 then
        gval g (setAx p a index)
      else 0 := by
  rcases p with ⟨x, y, z⟩
  rfl

theorem insertCells_norm (g D : Grid Nat) (index a n : Nat) :
    (insertCells g D index a n).Norm := by
  intro x y z h
  have := insertCells_val g D index a n (x, y, z)
  unfold gval at this
  dsimp only at this
  rw [this, if_neg h]

theorem deleteOneCells_norm (g : Grid Nat) (index a : Nat) :
    (deleteOneCells g index a).Norm := by
  intro x y z h
  have := deleteOneCells_val g index a (x, y, z)
  unfold gval at this
  dsimp only at this
  rw [this, if_neg h]

theorem insertCells_range8 (g D : Grid Nat) (index a n : Nat) (hg : g.Range8)
    (hD : D.Range8) : (insertCells g D index a n).Range8 := by
  intro x y z
  have := insertCells_val g D index a n (x, y, z)
  unfold gval at this
  dsimp only at this
  rw [this]
  split
  · split
    · exact hg _ _ _
    · split
      · exact hD _ _ _
      · exact hg _ _ _
  · omega

theorem deleteOneCells_range8 (g : Grid Nat) (index a : Nat) (hg : g.Range8) :
    (deleteOneCells g index a).Range8 := by
  intro x y z
  have := deleteOneCells_val g index a (x, y, z)
  unfold gval at this
  dsimp only at this
  rw [this]
  split
  · split
    · exact hg _ _ _
    · exact hg _ _ _
  · omega

theorem gridToList_mem_lt (g : Grid Nat) (hR : g.Range8) :
    ∀ v ∈ gridToList g, v < 256 := by
  intro v hv
  unfold gridToList at hv
  obtain ⟨i, _, rfl⟩ := List.mem_map.mp hv
  exact hR _ _ _

theorem listToGrid_range8 (s : Triple) (l : List Nat) (hl : ∀ v ∈ l, v < 256) :
    (listToGrid 0 s l).Range8 := by
  intro x y z
  unfold listToGrid mkGrid
  dsimp only
  split
  · rw [List.getD_eq_getElem?_getD]
    cases h : l[(x * s.2.1 + y) * s.2.2 + z]? with
    | none => simp
    | some v =>
      simp only [Option.getD_some]
      exact hl v (List.getElem?_mem h)
  · omega

/-! ## Round trips of the individual cell operations -/

/-- Rotating by `-amount` after `amount` restores the cells (through any
intermediate state that agrees pointwise with the rotated cells). -/
theorem rotateCells_revert (amount : Int) (axis : Nat) (hax : axis < 3)
    (g tc : Grid Nat) (hN : g.Norm)
    (hs : tc.shape = (rotateCells amount axis g).shape)
    (hv : ∀ x y z, tc.val x y z = (rotateCells amount axis g).val x y z) :
    (rotateCells (-amount) axis tc).shape = g.shape ∧
      ∀ x y z, (rotateCells (-amount) axis tc).val x y z = g.val x y z := by
  have hab : ((rotAxes axis).1, (rotAxes axis).2) = (1, 2) ∨
      ((rotAxes axis).1, (rotAxes axis).2) = (0, 2) ∨
      ((rotAxes axis).1, (rotAxes axis).2) = (0, 1) := by
    have : axis = 0 ∨ axis = 1 ∨ axis = 2 := by omega
    rcases this with rfl | rfl | rfl <;> simp [rotAxes]
  unfold rotateCells at *
  obtain ⟨hs2, hv2⟩ := iterate_rot_congr (rotAxes axis).1 (rotAxes axis).2
    (rotSteps (-amount)) tc _ hs hv
  rw [← Function.iterate_add_apply] at hs2 hv2
  have hcases : rotSteps (-amount) + rotSteps amount = 0 ∨
      rotSteps (-amount) + rotSteps amount = 4 := by
    unfold rotSteps
    omega
  rcases hcases with h4 | h4
  · rw [h4] at hs2 hv2
    exact ⟨hs2, hv2⟩
  · rw [h4] at hs2 hv2
    obtain ⟨hs4, hv4⟩ := rotFour (rotAxes axis).1 (rotAxes axis).2 hab g hN
    exact ⟨hs2.trans hs4, fun x y z => (hv2 x y z).trans (hv4 x y z)⟩

/-- Deleting the single inserted layer restores the cells. -/
theorem insert_delete_roundtrip (g D : Grid Nat) (index a : Nat) (hN : g.Norm)
    (tc : Grid Nat) (hs : tc.shape = (insertCells g D index a 1).shape)
    (hv : ∀ x y z, tc.val x y z = (insertCells g D index a 1).val x y z) :
    (deleteOneCells tc index a).shape = g.shape ∧
      ∀ x y z, (deleteOneCells tc index a).val x y z = g.val x y z := by
  have hshape : (deleteOneCells tc index a).shape = g.shape := by
    show setAx tc.shape a (getAx tc.shape a - 1) = g.shape
    rw [hs]
    show setAx (setAx g.shape a (getAx g.shape a + 1)) a
      (getAx (setAx g.shape a (getAx g.shape a + 1)) a - 1) = g.shape
    rw [getAx_setAx_same, setAx_setAx, Nat.add_sub_cancel, setAx_getAx]
  refine ⟨hshape, ?_⟩
  intro x y z
  by_cases hin : inB g.shape x y z
  · have hin' : inBp g.shape (x, y, z) := hin
    have hpa : getAx (x, y, z) a < getAx g.shape a := getAx_lt_of_inBp a hin'
    have hmain := deleteOneCells_val tc index a (x, y, z)
    unfold gval at hmain
    dsimp only at hmain
    have hcdel : inB (deleteOneCells tc index a).shape x y z := by
      rw [hshape]
      exact hin
    rw [hmain, if_pos hcdel]
    by_cases hlt : getAx (x, y, z) a < index
    · rw [if_pos hlt, hv x y z]
      have hins := insertCells_val g D index a 1 (x, y, z)
      unfold gval at hins
      dsimp only at hins
      have hcins : inB (insertCells g D index a 1).shape x y z :=
        inBp_shape_setAx (by omega) hin'
      rw [hins, if_pos hcins, if_pos hlt]
    · rw [if_neg hlt]
      rw [hv (setAx (x, y, z) a (getAx (x, y, z) a + 1)).1
        (setAx (x, y, z) a (getAx (x, y, z) a + 1)).2.1
        (setAx (x, y, z) a (getAx (x, y, z) a + 1)).2.2]
      have hins := insertCells_val g D index a 1 (setAx (x, y, z) a (getAx (x, y, z) a + 1))
      unfold gval at hins
      have hq : inB (insertCells g D index a 1).shape
          (setAx (x, y, z) a (getAx (x, y, z) a + 1)).1
          (setAx (x, y, z) a (getAx (x, y, z) a + 1)).2.1
          (setAx (x, y, z) a (getAx (x, y, z) a + 1)).2.2 :=
        inBp_setAx_both (by omega) hin'
      rw [hins, if_pos hq, getAx_setAx_same, if_neg (by omega), if_neg (by omega),
        setAx_setAx, Nat.add_sub_cancel, setAx_getAx]
  · have h0 : (deleteOneCells tc index a).val x y z = 0 :=
      deleteOneCells_norm tc index a x y z (by rw [hshape]; exact hin)
    rw [h0, hN x y z hin]

/-- Re-inserting the captured slab restores the cells after a deletion. -/
theorem delete_insert_roundtrip (g : Grid Nat) (index a : Nat) (hN : g.Norm)
    (hlt : index < getAx g.shape a)
    (tc : Grid Nat) (hs : tc.shape = (deleteOneCells g index a).shape)
    (hv : ∀ x y z, tc.val x y z = (deleteOneCells g index a).val x y z) :
    (insertCells tc (listToGrid 0 (setAx tc.shape a 1)
        (gridToList (takeLayer g index a))) index a 1).shape = g.shape ∧
      ∀ x y z, (insertCells tc (listToGrid 0 (setAx tc.shape a 1)
        (gridToList (takeLayer g index a))) index a 1).val x y z = g.val x y z := by
  have he : 1 ≤ getAx g.shape a := by omega
  have htcShape : setAx tc.shape a 1 = (takeLayer g index a).shape := by
    rw [hs]
    show setAx (setAx g.shape a (getAx g.shape a - 1)) a 1 = setAx g.shape a 1
    rw [setAx_setAx]
  have hshape : (insertCells tc (listToGrid 0 (setAx tc.shape a 1)
      (gridToList (takeLayer g index a))) index a 1).shape = g.shape := by
    show setAx tc.shape a (getAx tc.shape a + 1) = g.shape
    rw [hs]
    show setAx (setAx g.shape a (getAx g.shape a - 1)) a
      (getAx (setAx g.shape a (getAx g.shape a - 1)) a + 1) = g.shape
    rw [getAx_setAx_same, setAx_setAx, Nat.sub_add_cancel he, setAx_getAx]
  refine ⟨hshape, ?_⟩
  intro x y z
  by_cases hin : inB g.shape x y z
  · have hin' : inBp g.shape (x, y, z) := hin
    have hpa : getAx (x, y, z) a < getAx g.shape a := getAx_lt_of_inBp a hin'
    have hmain := insertCells_val tc (listToGrid 0 (setAx tc.shape a 1)
      (gridToList (takeLayer g index a))) index a 1 (x, y, z)
    unfold gval at hmain
    dsimp only at hmain
    have hcins : inB (insertCells tc (listToGrid 0 (setAx tc.shape a 1)
        (gridToList (takeLayer g index a))) index a 1).shape x y z := by
      rw [hshape]
      exact hin
    rw [hmain, if_pos hcins]
    by_cases hb1 : getAx (x, y, z) a < index
    · rw [if_pos hb1, hv x y z]
      have hdel := deleteOneCells_val g index a (x, y, z)
      unfold gval at hdel
      dsimp only at hdel
      have hcdel : inB (deleteOneCells g index a).shape x y z :=
        inBp_shape_setAx (by omega) hin'
      rw [hdel, if_pos hcdel, if_pos hb1]
    · by_cases hb2 : getAx (x, y, z) a < index + 1
      · have hpeq : getAx (x, y, z) a = index := by omega
        rw [if_neg hb1, if_pos hb2]
        have hq : inB (takeLayer g index a).shape
            (setAx (x, y, z) a (getAx (x, y, z) a - index)).1
            (setAx (x, y, z) a (getAx (x, y, z) a - index)).2.1
            (setAx (x, y, z) a (getAx (x, y, z) a - index)).2.2 :=
          inBp_setAx_both (by omega) hin'
        have hdecode := listToGrid_gridToList 0 (takeLayer g index a)
          (setAx (x, y, z) a (getAx (x, y, z) a - index)).1
          (setAx (x, y, z) a (getAx (x, y, z) a - index)).2.1
          (setAx (x, y, z) a (getAx (x, y, z) a - index)).2.2 hq
        rw [htcShape, hdecode]
        have htk := takeLayer_val g index a (setAx (x, y, z) a (getAx (x, y, z) a - index))
        unfold gval at htk
        rw [htk, if_pos hq, setAx_setAx, ← hpeq, setAx_getAx]
      · rw [if_neg hb1, if_neg hb2]
        rw [hv (setAx (x, y, z) a (getAx (x, y, z) a - 1)).1
          (setAx (x, y, z) a (getAx (x, y, z) a - 1)).2.1
          (setAx (x, y, z) a (getAx (x, y, z) a - 1)).2.2]
        have hdel := deleteOneCells_val g index a (setAx (x, y, z) a (getAx (x, y, z) a - 1))
        unfold gval at hdel
        have hq : inB (deleteOneCells g index a).shape
            (setAx (x, y, z) a (getAx (x, y, z) a - 1)).1
            (setAx (x, y, z) a (getAx (x, y, z) a - 1)).2.1
            (setAx (x, y, z) a (getAx (x, y, z) a - 1)).2.2 :=
          inBp_setAx_both (by omega) hin'
        rw [hdel, if_pos hq, getAx_setAx_same, if_neg (by omega), setAx_setAx,
          show getAx (x, y, z) a - 1 + 1 = getAx (x, y, z) a by omega, setAx_getAx]
  · have h0 : (insertCells tc (listToGrid 0 (setAx tc.shape a 1)
        (gridToList (takeLayer g index a))) index a 1).val x y z = 0 :=
      insertCells_norm _ _ index a 1 x y z (by rw [hshape]; exact hin)
    rw [h0, hN x y z hin]

/-- Subtracting the stored diff after adding it restores the cells. -/
theorem add_sub_roundtrip (g : Grid Nat) (slc : Box) (D : Grid Int) (hN : g.Norm)
    (hR : g.Range8) (tc : Grid Nat) (hs : tc.shape = (addDiff g slc D).shape)
    (hv : ∀ x y z, tc.val x y z = (addDiff g slc D).val x y z) :
    (subDiff tc slc D).shape = g.shape ∧
      ∀ x y z, (subDiff tc slc D).val x y z = g.val x y z := by
  have hshape : (subDiff tc slc D).shape = g.shape := by
    show tc.shape = g.shape
    rw [hs]
    rfl
  refine ⟨hshape, ?_⟩
  intro x y z
  by_cases hin : inB g.shape x y z
  · show (subDiff tc slc D).val x y z = g.val x y z
    unfold subDiff mkGrid
    dsimp only
    rw [show tc.shape = g.shape from hs, if_pos hin, hv x y z]
    unfold addDiff mkGrid
    dsimp only
    rw [if_pos hin]
    by_cases hb : inBox slc x y z
    · rw [if_pos hb, if_pos hb]
      have := hR x y z
      omega
    · rw [if_neg hb, if_neg hb]
  · have h0 : (subDiff tc slc D).val x y z = 0 := by
      unfold subDiff mkGrid
      dsimp only
      rw [show tc.shape = g.shape from hs, if_neg hin]
    rw [h0, hN x y z hin]

/-- Restoring the captured colors undoes a palette write that stayed inside
the color table. -/
theorem setColors_length (pal : List Color) (s : Nat) (cs : List Color)
    (h : s + cs.length ≤ pal.length) : (setColors pal s cs).length = pal.length := by
  unfold setColors
  simp only [List.length_append, List.length_take, List.length_drop]
  omega

theorem setColors_roundtrip (pal : List Color) (s : Nat) (cs : List Color)
    (h : s + cs.length ≤ pal.length) :
    setColors (setColors pal s cs) s ((pal.drop s).take cs.length) = pal := by
  have hlen : ((pal.drop s).take cs.length).length = cs.length := by
    rw [List.length_take, List.length_drop]
    omega
  unfold setColors
  rw [hlen]
  rw [List.take_append_eq_append_take, List.take_append_eq_append_take]
  rw [List.drop_append_eq_append_drop, List.drop_append_eq_append_drop]
  have ht : (List.take s pal).length = s := by rw [List.length_take]; omega
  have ht2 : (List.take s pal ++ cs).length = s + cs.length := by
    rw [List.length_append, ht]
  rw [ht, ht2, List.take_take,
    List.drop_eq_nil_of_le (show (List.take s pal).length ≤ s + cs.length from by
      rw [ht]; omega)]
  simp only [Nat.min_self, Nat.sub_self, List.take_zero, List.drop_zero,
    List.append_nil, List.nil_append,
    show s - (s + cs.length) = 0 from by omega,
    show s + cs.length - s = cs.length from by omega, List.drop_length]
  have hfin : List.take cs.length (List.drop s pal) ++ List.drop (s + cs.length) pal =
      List.drop s pal := by
    have h3 := List.take_append_drop cs.length (List.drop s pal)
    rw [List.drop_drop] at h3
    exact h3
  rw [List.append_assoc, hfin, List.take_append_drop]

/-! ## Cursor and stack bookkeeping helpers -/

/-- `move_cursor_axis` always raises `TypeError` (it forwards `None` deltas
for the two untouched axes into `move_cursor`'s additions). -/
theorem moveCursorAxis_none (shape : Triple) (c : Cursor) (axis : Nat) (delta : Int) :
    moveCursorAxis shape c axis delta = none := by
  unfold moveCursorAxis moveCursorOpt addOpt
  by_cases h0 : axis = 0 <;> by_cases h1 : axis = 1 <;> by_cases h2 : axis = 2 <;>
    simp [h0, h1, h2]

theorem curLE_refl (c : Cursor) : curLE c c := ⟨le_refl _, le_refl _, le_refl _⟩

theorem curLE_trans {a b c : Cursor} (h1 : curLE a b) (h2 : curLE b c) : curLE a c :=
  ⟨le_trans h1.1 h2.1, le_trans h1.2.1 h2.2.1, le_trans h1.2.2 h2.2.2⟩

theorem getAxI_le_of_curLE {c c' : Cursor} (h : curLE c c') (a : Nat) :
    getAxI c a ≤ getAxI c' a := by
  unfold getAxI
  by_cases h0 : a = 0
  · simp only [h0, if_pos rfl]
    exact h.1
  · by_cases h1 : a = 1
    · simp only [if_neg h0, h1, if_pos rfl]
      exact h.2.1
    · simp only [if_neg h0, if_neg h1]
      exact h.2.2

theorem curLE_setCursorAxis {c c' : Cursor} {a : Nat} {v : Int} (h : curLE c c')
    (hv : v ≤ getAxI c' a) : curLE (setCursorAxis c a v) c' := by
  obtain ⟨hx, hy, hz⟩ := h
  unfold setCursorAxis setCursorOpt getAxI at *
  by_cases h0 : a = 0 <;> by_cases h1 : a = 1 <;> by_cases h2 : a = 2 <;>
    simp [h0, h1, h2] at hv ⊢ <;>
    exact ⟨by assumption, by assumption, by assumption⟩

/-! ## Norm and Range8 for the diff application -/

theorem addDiff_norm (g : Grid Nat) (slc : Box) (D : Grid Int) : (addDiff g slc D).Norm := by
  intro x y z h
  unfold addDiff mkGrid
  dsimp only
  rw [if_neg (show ¬ inB g.shape x y z from h)]

theorem addDiff_range8 (g : Grid Nat) (slc : Box) (D : Grid Int) (hR : g.Range8) :
    (addDiff g slc D).Range8 := by
  intro x y z
  unfold addDiff mkGrid
  dsimp only
  split
  · split
    · have h1 : (0 : Int) ≤ ((g.val x y z : Int) +
          D.val (x - slc.1.1) (y - slc.2.1.1) (z - slc.2.2.1)) % 256 :=
        Int.emod_nonneg _ (by norm_num)
      have h2 : ((g.val x y z : Int) +
          D.val (x - slc.1.1) (y - slc.2.1.1) (z - slc.2.2.1)) % 256 < 256 :=
        Int.emod_lt_of_pos _ (by norm_num)
      omega
    · exact hR _ _ _
  · omega

/-! ## Congruence for swap and flip, and their revert forms -/

theorem swapCells_congr (i1 i2 a : Nat) (g g' : Grid Nat) (hs : g.shape = g'.shape)
    (hv : ∀ x y z, g.val x y z = g'.val x y z) :
    (swapCells i1 i2 a g).shape = (swapCells i1 i2 a g').shape ∧
      ∀ x y z, (swapCells i1 i2 a g).val x y z = (swapCells i1 i2 a g').val x y z := by
  constructor
  · show g.shape = g'.shape
    exact hs
  · intro x y z
    unfold swapCells mkGrid
    dsimp only
    rw [hs]
    split
    · split_ifs <;> apply hv
    · rfl

theorem flipCells_congr (a : Nat) (g g' : Grid Nat) (hs : g.shape = g'.shape)
    (hv : ∀ x y z, g.val x y z = g'.val x y z) :
    (flipCells a g).shape = (flipCells a g').shape ∧
      ∀ x y z, (flipCells a g).val x y z = (flipCells a g').val x y z := by
  constructor
  · show g.shape = g'.shape
    exact hs
  · intro x y z
    unfold flipCells mkGrid
    dsimp only
    rw [hs]
    split
    · apply hv
    · rfl

/-- Swapping again from any state that agrees with the swapped cells
restores the originals. -/
theorem swap_revert (i1 i2 a : Nat) (g tc : Grid Nat) (hN : g.Norm)
    (h1 : i1 < getAx g.shape a) (h2 : i2 < getAx g.shape a)
    (hs : tc.shape = (swapCells i1 i2 a g).shape)
    (hv : ∀ x y z, tc.val x y z = (swapCells i1 i2 a g).val x y z) :
    (swapCells i1 i2 a tc).shape = g.shape ∧
      ∀ x y z, (swapCells i1 i2 a tc).val x y z = g.val x y z := by
  obtain ⟨hcs, hcv⟩ := swapCells_congr i1 i2 a tc (swapCells i1 i2 a g) hs hv
  refine ⟨hcs.trans (by exact rfl), ?_⟩
  intro x y z
  exact (hcv x y z).trans (swapCells_invol i1 i2 a g hN h1 h2 x y z)

/-- Flipping again from any state that agrees with the flipped cells
restores the originals. -/
theorem flip_revert (a : Nat) (g tc : Grid Nat) (hN : g.Norm)
    (hs : tc.shape = (flipCells a g).shape)
    (hv : ∀ x y z, tc.val x y z = (flipCells a g).val x y z) :
    (flipCells a tc).shape = g.shape ∧
      ∀ x y z, (flipCells a tc).val x y z = g.val x y z := by
  obtain ⟨hcs, hcv⟩ := flipCells_congr a tc (flipCells a g) hs hv
  refine ⟨hcs.trans (by exact rfl), ?_⟩
  intro x y z
  exact (hcv x y z).trans (flipCells_invol a g hN x y z)

/-! ## Unfolding equations for the drawing-level protocol -/

theorem undo_eq (d : Drawing) (e : Edit) (rest : List Edit) (hu : d.undos = e :: rest)
    (hver : d.version = e.version + 1) :
    undo d = (revertEdit e { d with undos := rest }).map fun r =>
      { r.1 with redos := e :: r.1.redos,
                 dirty := sliceUnion r.2 r.1.dirty r.1.cells.shape,
                 version := e.version } := by
  obtain ⟨cells, pal, hid, cur, ver, undos, redos, dirty⟩ := d
  dsimp only at hu hver ⊢
  subst hu
  unfold undo
  dsimp only
  rw [if_pos hver]

theorem applyOps_foldl_none (ops : List Op) :
    List.foldl (fun acc o => acc.bind (fun s => applyOp s o)) none ops = none := by
  induction ops with
  | nil => rfl
  | cons p ps ih =>
    rw [List.foldl_cons]
    simp only [Option.none_bind]
    exact ih

theorem applyOps_cons (d : Drawing) (o : Op) (ops : List Op) :
    applyOps d (o :: ops) = (applyOp d o).bind (fun d' => applyOps d' ops) := by
  unfold applyOps
  rw [List.foldl_cons]
  simp only [Option.some_bind]
  cases h : applyOp d o with
  | none =>
    simp only [Option.none_bind]
    exact applyOps_foldl_none ops
  | some d' =>
    simp only [Option.some_bind]

theorem undoN_succ' (k : Nat) : ∀ d : Drawing, undoN (k + 1) d = (undoN k d).bind undo := by
  induction k with
  | zero =>
    intro d
    show (undo d).bind (undoN 0) = (undoN 0 d).bind undo
    cases h : undo d <;> simp [undoN, h]
  | succ m ih =>
    intro d
    show (undo d).bind (undoN (m + 1)) = ((undo d).bind (undoN m)).bind undo
    cases h : undo d with
    | none => simp
    | some d2 =>
      simp only [Option.some_bind]
      exact ih d2

/-! ## One-step guarantees for each forward operation -/

theorem getAxI_setCursorAxis_same (c : Cursor) (a : Nat) (v : Int) (ha : a < 3) :
    getAxI (setCursorAxis c a v) a = v := by
  unfold getAxI setCursorAxis setCursorOpt
  by_cases h0 : a = 0 <;> by_cases h1 : a = 1 <;> by_cases h2 : a = 2 <;>
    (simp [h0, h1, h2]; try omega)

theorem modify_step (d0 : Drawing) (slc : Box) (data : Grid Nat) (tl : Tool) (dA : Drawing)
    (hN : d0.cells.Norm) (hR : d0.cells.Range8) (hH : d0.hidden = ([], [], []))
    (h : applyOp d0 (.modify slc data tl) = some dA) :
    OpStep d0 dA d0.palette.length := by
  unfold applyOp at h
  dsimp only [createEdit] at h
  cases hc : layerEditCreate d0 slc data tl with
  | none => rw [hc] at h; exact absurd h (by simp)
  | some e =>
    rw [hc] at h
    simp only [Option.some_bind] at h
    unfold layerEditCreate at hc
    by_cases hg : slcWF d0.cells.shape slc ∧ data.shape = boxShape slc
    · rw [if_pos hg] at hc
      obtain rfl := Option.some_inj.mp hc
      unfold performEditTop at h
      simp only [Edit.version, if_true] at h
      simp only [performEdit] at h
      have hlen : (gridToList (mkGrid (0 : Int) data.shape fun i j k =>
          if isHidden d0.hidden (slc.1.1 + i) (slc.2.1.1 + j) (slc.2.2.1 + k) then 0
          else
            i16 ((data.val i j k : Int) -
              (if data.val i j k ≠ 0 then 1 else 0) *
                (d0.cells.val (slc.1.1 + i) (slc.2.1.1 + j) (slc.2.2.1 + k) : Int)))).length =
          size3 (boxShape slc) := by
        rw [gridToList_length]
        exact congrArg size3 hg.2
      rw [if_pos ⟨hlen, hg.1⟩] at h
      simp only [Option.map_some'] at h
      obtain rfl := Option.some_inj.mp h
      refine ⟨addDiff_norm _ _ _, addDiff_range8 _ _ _ hR, rfl, hH, rfl,
        ⟨.layer slc _ tl.color d0.version, rfl, rfl, curLE_refl _, ?_⟩⟩
      rintro t ⟨hs, hv, hpal, hcur⟩
      have hs' : t.cells.shape = d0.cells.shape := hs
      refine ⟨({ t with cells := (subDiff t.cells slc
          (listToGrid 0 (boxShape slc) (gridToList (mkGrid (0 : Int) data.shape fun i j k =>
            if isHidden d0.hidden (slc.1.1 + i) (slc.2.1.1 + j) (slc.2.2.1 + k) then 0
            else
              i16 ((data.val i j k : Int) -
                (if data.val i j k ≠ 0 then 1 else 0) *
                  (d0.cells.val (slc.1.1 + i) (slc.2.1.1 + j)
                    (slc.2.2.1 + k) : Int)))))) }, some slc), ?_, ?_, rfl, rfl, rfl⟩
      · simp only [revertEdit]
        rw [if_pos ⟨hlen, show slcWF t.cells.shape slc from hs' ▸ hg.1⟩]
      · exact ⟨hs', (add_sub_roundtrip d0.cells slc _ hN hR t.cells hs hv).2, hpal, hcur⟩
    · rw [if_neg hg] at hc
      exact absurd hc (by simp)

theorem changeColors_step (d0 : Drawing) (s : Nat) (cs : List Color) (dA : Drawing)
    (hN : d0.cells.Norm) (hR : d0.cells.Range8) (hH : d0.hidden = ([], [], []))
    (hok : s + cs.length ≤ d0.palette.length)
    (h : applyOp d0 (.changeColors s cs) = some dA) :
    OpStep d0 dA d0.palette.length := by
  unfold applyOp at h
  dsimp only [createEdit] at h
  simp only [Option.some_bind] at h
  unfold performEditTop at h
  simp only [Edit.version, if_true] at h
  simp only [performEdit] at h
  simp only [Option.map_some'] at h
  obtain rfl := Option.some_inj.mp h
  refine ⟨hN, hR, setColors_length _ _ _ hok, hH, rfl,
    ⟨.palette s ((d0.palette.drop s).take cs.length) cs d0.version, rfl, rfl, curLE_refl _, ?_⟩⟩
  rintro t ⟨hs, hv, hpal, hcur⟩
  refine ⟨({ t with palette := setColors t.palette s ((d0.palette.drop s).take cs.length) },
    none), rfl, ?_, rfl, rfl, rfl⟩
  refine ⟨hs, hv, ?_, hcur⟩
  show setColors t.palette s ((d0.palette.drop s).take cs.length) = d0.palette
  rw [show t.palette = setColors d0.palette s cs from hpal]
  exact setColors_roundtrip d0.palette s cs hok

theorem moveLayer_step (d0 : Drawing) (f tgt axis : Nat) (dA : Drawing)
    (hN : d0.cells.Norm) (hR : d0.cells.Range8) (hH : d0.hidden = ([], [], []))
    (h : applyOp d0 (.moveLayer f tgt axis) = some dA) :
    OpStep d0 dA d0.palette.length := by
  unfold applyOp at h
  dsimp only [createEdit] at h
  simp only [Option.some_bind] at h
  unfold performEditTop at h
  simp only [Edit.version, if_true] at h
  simp only [performEdit] at h
  by_cases hg : axis < 3 ∧ f < getAx d0.cells.shape axis ∧ tgt < getAx d0.cells.shape axis
  · rw [if_pos hg] at h
    simp only [Option.map_some'] at h
    obtain rfl := Option.some_inj.mp h
    refine ⟨swapCells_norm _ _ _ _, swapCells_range8 _ _ _ _ hR, rfl,
      reallySwapLayers_hidden_nil d0 f tgt axis hH, rfl,
      ⟨.layerSwap f tgt axis d0.version, rfl, rfl, curLE_refl _, ?_⟩⟩
    rintro t ⟨hs, hv, hpal, hcur⟩
    have hs' : t.cells.shape = d0.cells.shape := hs
    refine ⟨(reallySwapLayers t f tgt axis, some (fullSlice t.cells.shape)), ?_, ?_, rfl, rfl, rfl⟩
    · simp only [revertEdit]
      rw [if_pos (show axis < 3 ∧ f < getAx t.cells.shape axis ∧ tgt < getAx t.cells.shape axis by
        rw [hs']; exact hg)]
    · exact ⟨hs', (swap_revert f tgt axis d0.cells t.cells hN hg.2.1 hg.2.2 hs hv).2, hpal, hcur⟩
  · rw [if_neg hg] at h
    exact absurd h (by simp)

theorem rotate_step (d0 : Drawing) (amount : Int) (axis : Nat) (dA : Drawing)
    (hN : d0.cells.Norm) (hR : d0.cells.Range8) (hH : d0.hidden = ([], [], []))
    (h : applyOp d0 (.rotate amount axis) = some dA) :
    OpStep d0 dA d0.palette.length := by
  unfold applyOp at h
  dsimp only [createEdit] at h
  simp only [Option.some_bind] at h
  unfold performEditTop at h
  simp only [Edit.version, if_true] at h
  simp only [performEdit] at h
  by_cases hax : axis < 3
  · rw [if_pos hax] at h
    simp only [Option.map_some'] at h
    obtain rfl := Option.some_inj.mp h
    refine ⟨iterate_rot_norm _ _ _ _ hN, iterate_rot_range8 _ _ _ _ hR, rfl,
      reallyRotate_hidden_nil d0 amount axis hH, rfl,
      ⟨.drawingRotate amount axis d0.version, rfl, rfl, curLE_refl _, ?_⟩⟩
    rintro t ⟨hs, hv, hpal, hcur⟩
    obtain ⟨hrs, hrv⟩ := rotateCells_revert amount axis hax d0.cells t.cells hN hs hv
    refine ⟨(reallyRotate t (-amount) axis, none), ?_, ?_, rfl, rfl, rfl⟩
    · simp only [revertEdit]
      rw [if_pos hax]
    · exact ⟨hrs, hrv, hpal, hcur⟩
  · rw [if_neg hax] at h
    exact absurd h (by simp)

theorem flip_step (d0 : Drawing) (axis : Nat) (dA : Drawing)
    (hN : d0.cells.Norm) (hR : d0.cells.Range8) (hH : d0.hidden = ([], [], []))
    (h : applyOp d0 (.flip axis) = some dA) :
    OpStep d0 dA d0.palette.length := by
  unfold applyOp at h
  dsimp only [createEdit] at h
  simp only [Option.some_bind] at h
  unfold performEditTop at h
  simp only [Edit.version, if_true] at h
  simp only [performEdit] at h
  by_cases hax : axis < 3
  · rw [if_pos hax] at h
    simp only [Option.map_some'] at h
    obtain rfl := Option.some_inj.mp h
    refine ⟨flipCells_norm _ _, flipCells_range8 _ _ hR, rfl,
      reallyFlip_hidden_nil d0 axis hH, rfl,
      ⟨.drawingFlip axis d0.version, rfl, rfl, curLE_refl _, ?_⟩⟩
    rintro t ⟨hs, hv, hpal, hcur⟩
    obtain ⟨hrs, hrv⟩ := flip_revert axis d0.cells t.cells hN hs hv
    refine ⟨(reallyFlip t axis, none), ?_, ?_, rfl, rfl, rfl⟩
    · simp only [revertEdit]
      rw [if_pos hax]
    · exact ⟨hrs, hrv, hpal, hcur⟩
  · rw [if_neg hax] at h
    exact absurd h (by simp)

theorem insertLayers_step (d0 : Drawing) (index axis : Nat) (dA : Drawing)
    (hN : d0.cells.Norm) (hR : d0.cells.Range8) (hH : d0.hidden = ([], [], []))
    (h : applyOp d0 (.insertLayers index axis 1) = some dA) :
    OpStep d0 dA d0.palette.length := by
  unfold applyOp at h
  dsimp only [createEdit] at h
  by_cases hax : axis < 3
  · rw [if_pos hax] at h
    simp only [Option.some_bind] at h
    unfold performEditTop at h
    simp only [Edit.version, if_true] at h
    simp only [performEdit] at h
    rw [if_pos hax] at h
    cases hri : reallyInsertLayers d0
        (gridToList (zerosGrid (setAx d0.cells.shape axis 1))) index axis 1 with
    | none => rw [hri] at h; exact absurd h (by simp)
    | some d' =>
      rw [hri] at h
      simp only [Option.map_some'] at h
      obtain rfl := Option.some_inj.mp h
      unfold reallyInsertLayers at hri
      dsimp only at hri
      split at hri
      · next hg =>
        split at hri
        · next hcb =>
          rw [moveCursorAxis_none] at hri
          exact absurd hri (by simp)
        · next hcb =>
          obtain rfl := Option.some_inj.mp hri
          have hD : (listToGrid 0 (setAx d0.cells.shape axis 1)
              (gridToList (zerosGrid (setAx d0.cells.shape axis 1)))).Range8 :=
            listToGrid_range8 _ _ (gridToList_mem_lt _ (zerosGrid_range8 _))
          have hHA : updateHidden d0.hidden axis
              (insertHidden (getHid d0.hidden axis) index 1) = ([], [], []) := by
            rw [hH, getHid_nil]
            exact updateHidden_nil axis
          refine ⟨insertCells_norm _ _ _ _ _, insertCells_range8 _ _ _ _ _ hR hD, rfl, hHA, rfl,
            ⟨.layersInsert index axis 1
              (gridToList (zerosGrid (setAx d0.cells.shape axis 1))) d0.version,
              rfl, rfl, curLE_refl _, ?_⟩⟩
          rintro t ⟨hs, hv, hpal, hcur⟩
          have hs' : t.cells.shape =
              setAx d0.cells.shape axis (getAx d0.cells.shape axis + 1) := hs
          have hguard : index < getAx t.cells.shape axis := by
            rw [hs', getAx_setAx_same]
            omega
          have htle : getAxI t.cursor axis ≤ getAxI d0.cursor axis :=
            getAxI_le_of_curLE (show curLE t.cursor d0.cursor from hcur) axis
          by_cases hb1 : (index : Int) ≤ getAxI t.cursor axis ∧
              getAxI t.cursor axis < (index : Int) + ((1 : Nat) : Int)
          · refine ⟨({ t with
                         cells := deleteOneCells t.cells index axis,
                         hidden := (updateHidden t.hidden axis
                           (deleteHidden (getHid t.hidden axis) index 1)),
                         cursor := (setCursorAxis t.cursor axis
                           (min (index : Int)
                             ((getAx (deleteOneCells t.cells index axis).shape axis : Int)
                               - 1))) },
              some (fullSlice (deleteOneCells t.cells index axis).shape)),
              ?_, ?_, rfl, rfl, rfl⟩
            · simp only [revertEdit]
              rw [if_pos hax]
              unfold reallyRemoveLayers
              dsimp only
              rw [if_pos hguard, if_pos hb1]
              rfl
            · obtain ⟨hds, hdv⟩ := insert_delete_roundtrip d0.cells
                (listToGrid 0 (setAx d0.cells.shape axis 1)
                  (gridToList (zerosGrid (setAx d0.cells.shape axis 1))))
                index axis hN t.cells hs hv
              refine ⟨hds, hdv, hpal, ?_⟩
              exact curLE_setCursorAxis (show curLE t.cursor d0.cursor from hcur)
                (le_trans (min_le_left _ _) (le_trans hb1.1 htle))
          · have hb2 : ¬ (getAxI t.cursor axis ≥ (index : Int) + ((1 : Nat) : Int)) := by
              simp only [not_le] at hcb ⊢
              omega
            refine ⟨({ t with
                         cells := deleteOneCells t.cells index axis,
                         hidden := (updateHidden t.hidden axis
                           (deleteHidden (getHid t.hidden axis) index 1)) },
              some (fullSlice (deleteOneCells t.cells index axis).shape)),
              ?_, ?_, rfl, rfl, rfl⟩
            · simp only [revertEdit]
              rw [if_pos hax]
              unfold reallyRemoveLayers
              dsimp only
              rw [if_pos hguard, if_neg hb1, if_neg hb2]
              rfl
            · obtain ⟨hds, hdv⟩ := insert_delete_roundtrip d0.cells
                (listToGrid 0 (setAx d0.cells.shape axis 1)
                  (gridToList (zerosGrid (setAx d0.cells.shape axis 1))))
                index axis hN t.cells hs hv
              exact ⟨hds, hdv, hpal, show curLE t.cursor d0.cursor from hcur⟩
      · next hg => exact absurd hri (by simp)
  · rw [if_neg hax] at h
    exact absurd h (by simp)

theorem deleteLayers_step (d0 : Drawing) (index axis : Nat) (dA : Drawing)
    (hN : d0.cells.Norm) (hR : d0.cells.Range8) (hH : d0.hidden = ([], [], []))
    (h : applyOp d0 (.deleteLayers index axis 1) = some dA) :
    OpStep d0 dA d0.palette.length := by
  unfold applyOp at h
  dsimp only [createEdit] at h
  rw [maskedTakeLayer_nil d0 index axis hH] at h
  by_cases hg : axis < 3 ∧ index < getAx d0.cells.shape axis
  · rw [if_pos hg] at h
    simp only [Option.some_bind] at h
    unfold performEditTop at h
    simp only [Edit.version, if_true] at h
    simp only [performEdit] at h
    rw [if_pos hg.1] at h
    cases hrr : reallyRemoveLayers d0 index axis 1 with
    | none => rw [hrr] at h; exact absurd h (by simp)
    | some d' =>
      rw [hrr] at h
      simp only [Option.map_some'] at h
      obtain rfl := Option.some_inj.mp h
      have key : ∀ (dAx : Drawing),
          getAxI d0.cursor axis < (index : Int) + ((1 : Nat) : Int) →
          dAx.cells.shape = (deleteOneCells d0.cells index axis).shape →
          (∀ x y z, dAx.cells.val x y z = (deleteOneCells d0.cells index axis).val x y z) →
          dAx.palette = d0.palette →
          curLE dAx.cursor d0.cursor →
          RevertOK (.layersDelete index axis 1
            (gridToList (takeLayer d0.cells index axis)) d0.version) d0 dAx := by
        rintro dAx hd0ca hxs hxv hxp hxc t ⟨hs, hv, hpal, hcur⟩
        have hs' : t.cells.shape = (deleteOneCells d0.cells index axis).shape := hs.trans hxs
        have hv' : ∀ x y z, t.cells.val x y z = (deleteOneCells d0.cells index axis).val x y z :=
          fun x y z => (hv x y z).trans (hxv x y z)
        have hpal' : t.palette = d0.palette := hpal.trans hxp
        have hcur' : curLE t.cursor d0.cursor := curLE_trans hcur hxc
        have hshape2 : setAx t.cells.shape axis 1 = setAx d0.cells.shape axis 1 := by
          rw [show t.cells.shape =
            setAx d0.cells.shape axis (getAx d0.cells.shape axis - 1) from hs', setAx_setAx]
        have hlen : (gridToList (takeLayer d0.cells index axis)).length =
            size3 (setAx t.cells.shape axis 1) := by
          rw [gridToList_length, hshape2]
          rfl
        have hidx : index ≤ getAx t.cells.shape axis := by
          rw [show t.cells.shape =
            setAx d0.cells.shape axis (getAx d0.cells.shape axis - 1) from hs', getAx_setAx_same]
          omega
        have hcb' : ¬ (getAxI t.cursor axis ≥ (index : Int) + ((1 : Nat) : Int)) := by
          have h1 := getAxI_le_of_curLE hcur' axis
          simp only [not_le]
          omega
        refine ⟨({ t with
                     cells := (insertCells t.cells
                       (listToGrid 0 (setAx t.cells.shape axis 1)
                         (gridToList (takeLayer d0.cells index axis))) index axis 1),
                     hidden := (updateHidden t.hidden axis
                       (insertHidden (getHid t.hidden axis) index 1)) },
          some (fullSlice (insertCells t.cells
            (listToGrid 0 (setAx t.cells.shape axis 1)
              (gridToList (takeLayer d0.cells index axis))) index axis 1).shape)),
          ?_, ?_, rfl, rfl, rfl⟩
        · simp only [revertEdit]
          rw [if_pos hg.1]
          unfold reallyInsertLayers
          dsimp only
          rw [if_pos ⟨hlen, hidx⟩, if_neg hcb']
          rfl
        · obtain ⟨his, hiv⟩ := delete_insert_roundtrip d0.cells index axis hN hg.2
            t.cells hs' hv'
          exact ⟨his, hiv, hpal', hcur'⟩
      unfold reallyRemoveLayers at hrr
      dsimp only at hrr
      split at hrr
      · next hguard0 =>
        split at hrr
        · next hcb1 =>
          obtain rfl := Option.some_inj.mp hrr
          have hHA : updateHidden d0.hidden axis
              (deleteHidden (getHid d0.hidden axis) index 1) = ([], [], []) := by
            rw [hH, getHid_nil]
            exact updateHidden_nil axis
          have hcLE : curLE (setCursorAxis d0.cursor axis
              (min (index : Int)
                ((getAx (deleteOneCells d0.cells index axis).shape axis : Int) - 1))) d0.cursor :=
            curLE_setCursorAxis (curLE_refl _) (le_trans (min_le_left _ _) hcb1.1)
          exact ⟨deleteOneCells_norm _ _ _, deleteOneCells_range8 _ _ _ hR, rfl, hHA, rfl,
            ⟨.layersDelete index axis 1 (gridToList (takeLayer d0.cells index axis)) d0.version,
              rfl, rfl, hcLE, key _ hcb1.2 rfl (fun _ _ _ => rfl) rfl hcLE⟩⟩
        · next hcb1 =>
          split at hrr
          · next hcb2 =>
            rw [moveCursorAxis_none] at hrr
            exact absurd hrr (by simp)
          · next hcb2 =>
            obtain rfl := Option.some_inj.mp hrr
            have hHA : updateHidden d0.hidden axis
                (deleteHidden (getHid d0.hidden axis) index 1) = ([], [], []) := by
              rw [hH, getHid_nil]
              exact updateHidden_nil axis
            have hd0ca : getAxI d0.cursor axis < (index : Int) + ((1 : Nat) : Int) := by
              simp only [not_le] at hcb2
              exact hcb2
            exact ⟨deleteOneCells_norm _ _ _, deleteOneCells_range8 _ _ _ hR, rfl, hHA, rfl,
              ⟨.layersDelete index axis 1 (gridToList (takeLayer d0.cells index axis)) d0.version,
                rfl, rfl, curLE_refl _, key _ hd0ca rfl (fun _ _ _ => rfl) rfl (curLE_refl _)⟩⟩
      · next hguard0 => exact absurd hrr (by simp)
  · rw [if_neg hg] at h
    exact absurd h (by simp)

/-- Any successful forward operation satisfying `OpOK` yields the step
guarantees: well-formed cells, preserved palette length, version bumped by
one, the created edit pushed, a non-increasing cursor, and revertibility. -/
theorem applyOp_step (d0 : Drawing) (o : Op) (dA : Drawing)
    (hN : d0.cells.Norm) (hR : d0.cells.Range8) (hH : d0.hidden = ([], [], []))
    (hok : OpOK d0.palette.length o)
    (h : applyOp d0 o = some dA) :
    OpStep d0 dA d0.palette.length := by
  cases o with
  | modify slc data tl => exact modify_step d0 slc data tl dA hN hR hH h
  | changeColors s cs => exact changeColors_step d0 s cs dA hN hR hH hok h
  | moveLayer f tgt axis => exact moveLayer_step d0 f tgt axis dA hN hR hH h
  | insertLayers index axis n =>
    obtain rfl : n = 1 := hok
    exact insertLayers_step d0 index axis dA hN hR hH h
  | deleteLayers index axis n =>
    obtain rfl : n = 1 := hok
    exact deleteLayers_step d0 index axis dA hN hR hH h
  | rotate amount axis => exact rotate_step d0 amount axis dA hN hR hH h
  | flip axis => exact flip_step d0 axis dA hN hR hH h

/-- Induction core of the undo round trip: undoing as many times as the
sequence length from any state agreeing with the final state restores the
original cells, palette, undo stack, and version. -/
theorem roundtrip_aux : ∀ (ops : List Op) (d0 : Drawing),
    d0.cells.Norm → d0.cells.Range8 → d0.hidden = ([], [], []) →
    (∀ o ∈ ops, OpOK d0.palette.length o) →
    ∀ d1, applyOps d0 ops = some d1 →
    ∀ t, Agrees t d1 → t.undos = d1.undos → t.version = d1.version →
    ∃ d2, undoN ops.length t = some d2 ∧ Agrees d2 d0 ∧
      d2.undos = d0.undos ∧ d2.version = d0.version := by
  intro ops
  induction ops with
  | nil =>
    intro d0 hN hR hH hok d1 h t hAg hu hver
    obtain rfl : d0 = d1 := Option.some_inj.mp h
    exact ⟨t, rfl, hAg, hu, hver⟩
  | cons o rest ih =>
    intro d0 hN hR hH hok d1 h t hAg hu hver
    rw [applyOps_cons] at h
    cases hA : applyOp d0 o with
    | none => rw [hA] at h; exact absurd h (by simp)
    | some dA =>
      rw [hA] at h
      simp only [Option.some_bind] at h
      obtain ⟨hNA, hRA, hPA, hHA, hverA, e, heV, heU, hcA, hrev⟩ :=
        applyOp_step d0 o dA hN hR hH (hok o (by simp)) hA
      have hokR : ∀ o' ∈ rest, OpOK dA.palette.length o' := by
        intro o' ho'
        rw [hPA]
        exact hok o' (by simp [ho'])
      obtain ⟨dB, hundoB, hAgB, huB, hverB⟩ := ih dA hNA hRA hHA hokR d1 h t hAg hu hver
      rw [show (o :: rest).length = rest.length + 1 from rfl, undoN_succ', hundoB]
      simp only [Option.some_bind]
      have hu2 : dB.undos = e :: d0.undos := by rw [huB, heU]
      have hv2 : dB.version = e.version + 1 := by rw [hverB, hverA, heV]
      rw [undo_eq dB e d0.undos hu2 hv2]
      obtain ⟨rp, hrp, hAgrp, hrpu, hrpr, hrpv⟩ :=
        hrev { dB with undos := d0.undos } (show Agrees _ dA from hAgB)
      rw [hrp]
      simp only [Option.map_some']
      exact ⟨_, rfl, hAgrp, hrpu, heV⟩

/-- **C1** (amended): for a sequence of forward edits in which every
`insert_layers`/`delete_layers` uses count 1 and every `change_colors`
write stays inside the palette (`OpOK`), applied to a well-formed store
with no hidden layers (values normalized out of bounds and in uint8
range), undoing as many times as the sequence length restores the cells
(shape and every value), the palette, and the version.  Each restriction
is forced by a failure of the unrestricted claim, exhibited in the
counterexample: `np.delete` with a scalar index removes a single layer
however many were inserted; an out-of-range palette write grows the color
list and undo does not shrink it back; and with a hidden nonzero layer the
delete edit captures the masked slab (hidden cells stored as the fill 0),
so undo restores zeros there. -/
theorem undo_roundtrip_wellformed (d0 : Drawing) (ops : List Op) (d1 : Drawing)
    (hN : d0.cells.Norm) (hR : d0.cells.Range8) (hH : d0.hidden = ([], [], []))
    (hok : ∀ o ∈ ops, OpOK d0.palette.length o)
    (h : applyOps d0 ops = some d1) :
    ∃ d2, undoN ops.length d1 = some d2 ∧
      d2.cells.shape = d0.cells.shape ∧
      (∀ x y z, d2.cells.val x y z = d0.cells.val x y z) ∧
      d2.palette = d0.palette ∧ d2.version = d0.version := by
  obtain ⟨d2, hu, hAg, _, hver⟩ := roundtrip_aux ops d0 hN hR hH hok d1 h d1
    ⟨rfl, fun _ _ _ => rfl, rfl, curLE_refl _⟩ rfl rfl
  exact ⟨d2, hu, hAg.1, hAg.2.1, hAg.2.2.1, hver⟩

/-- C1 witness: a flip on a fresh 1×1×1 store, fully undone. -/
theorem undo_roundtrip_wellformed_witness :
    ∃ d2, undoN 1 c1wApplied = some d2 ∧
      d2.cells.shape = (mkDrawing (1, 1, 1)).cells.shape ∧
      (∀ x y z, d2.cells.val x y z = (mkDrawing (1, 1, 1)).cells.val x y z) ∧
      d2.palette = (mkDrawing (1, 1, 1)).palette ∧
      d2.version = (mkDrawing (1, 1, 1)).version :=
  undo_roundtrip_wellformed (mkDrawing (1, 1, 1)) [Op.flip 0] c1wApplied
    (zerosGrid_norm _) (zerosGrid_range8 _) rfl
    (by intro o ho; simp only [List.mem_singleton] at ho; subst ho; trivial)
    (by rfl)

set_option maxRecDepth 8000 in
/-- C1 counterexample to the unrestricted claim, one scenario per
restriction.  (1) Inserting two layers at once (shape 1×1×1 → 1×1×3) and
undoing once leaves shape 1×1×2, because `Drawing._really_remove_layers`
passes a scalar index to `np.delete` and removes a single layer regardless
of `n`.  (2) `change_colors(256, c)` on the 256-color palette grows it to
257 entries; the captured original range was empty, so undo leaves 257
entries.  (3) Deleting the hidden layer 1 of a 1×1×2 store holding 5 there
captures the masked slab as 0, so undo restores 0 where 5 was. -/
theorem undo_roundtrip_counterexample :
    (applyOps (mkDrawing (1, 1, 1)) [Op.insertLayers 0 2 2] = some c1d1 ∧
      undoN 1 c1d1 = some c1d2 ∧
      c1d2.cells.shape = (1, 1, 2) ∧ (mkDrawing (1, 1, 1)).cells.shape = (1, 1, 1)) ∧
    (applyOps (mkDrawing (1, 1, 1)) [Op.changeColors 256 [(1, 2, 3, 4)]] = some c1p1 ∧
      undoN 1 c1p1 = some c1p2 ∧
      c1p2.palette.length = 257 ∧ (mkDrawing (1, 1, 1)).palette.length = 256) ∧
    (applyOps c1h0 [Op.deleteLayers 1 2 1] = some c1h1 ∧
      undoN 1 c1h1 = some c1h2 ∧
      c1h2.cells.shape = c1h0.cells.shape ∧
      c1h2.cells.val 0 0 1 = 0 ∧ c1h0.cells.val 0 0 1 = 5) :=
  ⟨⟨rfl, rfl, rfl, rfl⟩, ⟨rfl, rfl, rfl, rfl⟩, ⟨rfl, rfl, rfl, rfl, rfl⟩⟩

/-- C6 witness. -/
theorem layer_edit_delta_witness :
    layerEditCreate (mkDrawing (2, 2, 1)) c6slc c6data ⟨3⟩ =
      some (.layer c6slc (gridToList (specDelta (mkDrawing (2, 2, 1)) c6slc c6data)) 3 0) :=
  (layer_edit_delta (mkDrawing (2, 2, 1)) c6slc c6data ⟨3⟩ rfl (by decide) rfl
    (zerosGrid_range8 (2, 2, 1))
    (by intro x y z; simp only [c6data, mkGrid]; split <;> omega)).1

/-- C6 counterexample to the unrestricted formula: painting 7 over a 1×1×2
store whose hidden layer 1 holds 5 stores the diff list [7, 0] (the hidden
cell is captured as the masked fill 0), while the spec formula
`new - mask(new) * old` gives [7, 2]. -/
theorem layer_edit_delta_counterexample :
    ∃ L, layerEditCreate c6h c6hslc c6hdata ⟨3⟩ = some (.layer c6hslc L 3 0) ∧
      L ≠ gridToList (specDelta c6h c6hslc c6hdata) := by
  refine ⟨_, rfl, ?_⟩
  decide

end Voxpaint
